import Mathlib

/-!
Verification development for the italaw_scraper reconciliation engine
(src/scraper/incremental.py and src/utility/cleaning.py).

Modelling conventions (shallow embedding of the Python source):
* Python scalar cell values are modelled by `Italaw.Val`: `null` stands for
  both `None` and pandas `NaN` (the code normalises the two missing-value
  representations with `pd.isna` before every comparison, and `pd.isna` is
  the only way the two are distinguished on the paths modelled here);
  strings and integers are carried as themselves.  Python equality between
  values of different types is `False`, matching structural equality here.
* Fallible code (a Python expression that can raise) returns `Except Unit`;
  `Except.error ()` is an uncaught exception.
* A pandas row is an association list from column name to value; reading an
  absent column yields `null` (the code reads rows with `Series.get`, whose
  default is `None`).  A data frame is a column-name list plus a row list.
* `int(x)` is modelled by `pyInt` (whitespace stripping, optional sign,
  decimal digits; digit-separator underscores are not modelled).
* `str.lower` is modelled by `Char.toLower` (ASCII; the non-ASCII cases are
  irrelevant to the properties proved, since every non-`[a-z0-9]` character
  is collapsed to the separator by the next step of `to_snake_case`).
-/

deriving instance DecidableEq for Except

namespace Italaw

/-- A Python scalar value as it appears in a dataset cell or a scraped
record: missing (`None`/`NaN`), a string, or an integer. -/
inductive Val where
  | null : Val
  | str (s : String) : Val
  | int (n : Int) : Val
deriving DecidableEq, Repr

/-- Python truthiness of a `Val`: `None` is falsy, a string is truthy iff
nonempty, an integer is truthy iff nonzero. -/
def Val.truthy : Val → Bool
  | .null => false
  | .str s => !(s == "")
  | .int n => !(n == 0)

/-- Python `f"{v}"` / `str(v)` rendering of a value (used by the f-string in
`generate_doc_id`): `None` prints as `"None"`. -/
def Val.fstr : Val → String
  | .null => "None"
  | .str s => s
  | .int n => toString n

/-- Decimal digit test for `int()` parsing. -/
def isDigitCh (c : Char) : Bool := 48 ≤ c.toNat && c.toNat ≤ 57

/-- Value of a digit list, most significant first. -/
def digitsVal (l : List Char) : Nat :=
  l.foldl (fun a c => a * 10 + (c.toNat - 48)) 0

/-- Parse the body of a Python `int()` literal after whitespace stripping:
an optional sign followed by at least one decimal digit. -/
def parseSigned (l : List Char) : Option Int :=
  match l with
  | [] => none
  | '+' :: ds => if ds ≠ [] && ds.all isDigitCh then some (digitsVal ds) else none
  | '-' :: ds => if ds ≠ [] && ds.all isDigitCh then some (-(digitsVal ds : Int)) else none
  | ds => if ds.all isDigitCh then some (digitsVal ds) else none

/-- Python `int(string)`: strip surrounding whitespace, then an optional
sign and decimal digits. -/
def parseIntStr (s : String) : Option Int :=
  parseSigned (((s.data.dropWhile Char.isWhitespace).reverse.dropWhile Char.isWhitespace).reverse)

/-- Python `int(v)` on a scalar: identity on integers, parsing on strings,
an exception (`error`) on `None`. -/
def pyInt : Val → Except Unit Int
  | .null => .error ()
  | .int n => .ok n
  | .str s =>
    match parseIntStr s with
    | some n => .ok n
    | none => .error ()

/-- Character class `[a-z0-9]` of the regex in `to_snake_case`. -/
def isSnakeAl (c : Char) : Bool :=
  (97 ≤ c.toNat && c.toNat ≤ 122) || (48 ≤ c.toNat && c.toNat ≤ 57)

/-- One pass of `re.sub(r'[^a-z0-9]+', '_', text)`: every maximal run of
characters outside `[a-z0-9]` becomes a single `'_'`.  The boolean flag
records whether we are inside a run whose separator has already been
emitted. -/
def collapse : List Char → Bool → List Char
  | [], _ => []
  | c :: cs, inSep =>
    if isSnakeAl c then c :: collapse cs false
    else if inSep then collapse cs true
    else '_' :: collapse cs true

/-- Python `str.strip('_')`: drop leading and trailing underscores. -/
def stripUnderscores (l : List Char) : List Char :=
  (((l.dropWhile (fun c => c == '_')).reverse).dropWhile (fun c => c == '_')).reverse

/-- Source `utility/cleaning.py`: `to_snake_case` lowercases, collapses every
maximal run of non-`[a-z0-9]` characters to one underscore and strips
leading and trailing underscores. -/
def to_snake_case (text : String) : String :=
  ⟨stripUnderscores (collapse (text.data.map Char.toLower) false)⟩

/-- Python `to_snake_case` applied to an arbitrary scalar: raises
(`AttributeError`) unless the argument is a string. -/
def pySnakeVal : Val → Except Unit String
  | .str s => .ok (to_snake_case s)
  | _ => .error ()

/-- Source `incremental.py`: `generate_arbitration_id(year, case_name)`.  The source
computes `to_snake_case(case_name)` (raising on a non-string) and returns
`f"{int(year)}_{case_name_clean}"` (raising when `int(year)` fails).  The
value returned is always a string; `Except.error ()` is a raised
exception. -/
def generate_arbitration_id (year : Val) (case_name : Val) : Except Unit Val :=
  match case_name with
  | .str s =>
    match pyInt year with
    | .ok n => .ok (.str (toString n ++ "_" ++ to_snake_case s))
    | .error _ => .error ()
  | _ => .error ()

/-- Source `incremental.py`: `generate_doc_id(arbitration_id, doc_name)`: returns
`None` when `doc_name` is falsy, otherwise
`f"{arbitration_id}_{to_snake_case(doc_name)}"` (raising when `doc_name`
is truthy but not a string; the `arbitration_id` is interpolated by the
f-string without any check, a `None` rendering as the text `"None"`). -/
def generate_doc_id (arbitration_id : Val) (doc_name : Val) : Except Unit (Option String) :=
  if !doc_name.truthy then .ok none
  else
    match doc_name with
    | .str s => .ok (some (arbitration_id.fstr ++ "_" ++ to_snake_case s))
    | _ => .error ()

/-- Strip the `detail_` marker from a column name, as
`col.replace('detail_', '')` does: every (non-overlapping, left-to-right)
occurrence of the pattern is removed. -/
def repDetail : List Char → List Char
  | 'd' :: 'e' :: 't' :: 'a' :: 'i' :: 'l' :: '_' :: rest => repDetail rest
  | c :: cs => c :: repDetail cs
  | [] => []

/-- String version of `repDetail` (`col.replace('detail_', '')`). -/
def stripDetail (col : String) : String := ⟨repDetail col.data⟩

/-- A dataset row: association list from column name to value.  `Row.get`
models `Series.get` after the `pd.isna` normalisation in the source: a
missing column and a stored missing value both read as `null`. -/
structure Row where
  cells : List (String × Val)
deriving DecidableEq, Repr

/-- Read a cell; absent columns and stored `NaN`/`None` both give `null`. -/
def Row.get (r : Row) (c : String) : Val := (r.cells.lookup c).getD .null

/-- Write a cell (used by the merge): any previous binding for the column
is dropped. -/
def Row.set (r : Row) (c : String) (v : Val) : Row :=
  ⟨(c, v) :: r.cells.filter (fun kv => !(kv.1 == c))⟩

/-- A document-level data frame: the column list and the rows. -/
structure DataFrame where
  cols : List String
  rows : List Row
deriving DecidableEq, Repr

/-- Source `incremental.py`: `get_existing_doc_ids` — the (multi)set of non-null
`doc_id` values; only membership is ever used of the Python `set`.  The
source indexes `df['doc_id']`, which raises `KeyError` when the column is
absent; the model is only applied to frames that carry the mandatory
`doc_id` column (every concrete frame in this file does). -/
def get_existing_doc_ids (df : DataFrame) : List Val :=
  (df.rows.map (fun r => r.get "doc_id")).filter (fun v => !(v == Val.null))

/-- Source `incremental.py`: `get_existing_case_urls` — the non-null
`link_to_italaws_case_page` values.  The source indexes
`df['link_to_italaws_case_page']`, which raises `KeyError` when the column
is absent; the model is only applied to frames that carry that mandatory
column (every concrete frame handed to `compare_documents` in this file
does). -/
def get_existing_case_urls (df : DataFrame) : List Val :=
  (df.rows.map (fun r => r.get "link_to_italaws_case_page")).filter (fun v => !(v == Val.null))

/-- Source `incremental.py`: `extract_detail_columns` — all columns whose name
starts with `detail_`. -/
def extract_detail_columns (df : DataFrame) : List String :=
  df.cols.filter (fun c => "detail_".data.isPrefixOf c.data)

/-- The metadata fields compared for change detection
(`METADATA_FIELDS` in the source). -/
def METADATA_FIELDS : List String := ["doc_date", "doc_name", "doc_link"]

/-- The `doc_dict` built for an existing document before comparison:
`{'doc_date': …, 'doc_name': …, 'doc_link': …, 'details': …}`. -/
structure DocPatch where
  doc_date : Val
  doc_name : Val
  doc_link : Val
  details : List (String × Val)
deriving DecidableEq, Repr

/-- Reading `new_doc.get(field)` for the patch dictionary (keys other than the
three metadata fields read as `None`; `compare_metadata` only ever asks
for the three). -/
def DocPatch.get (p : DocPatch) (f : String) : Val :=
  if f == "doc_date" then p.doc_date
  else if f == "doc_name" then p.doc_name
  else if f == "doc_link" then p.doc_link
  else .null

/-- Reading `new_details.get(detail_key)` with `None` default, `pd.isna`-normalised. -/
def detailGet (details : List (String × Val)) (key : String) : Val :=
  (details.lookup key).getD .null

/-- Source `incremental.py`: `compare_metadata` — true iff some tracked field or
some already-known `detail_*` column differs between the existing row and
the scraped document, after normalising both sides' missing values
(`pd.isna` → `null`).  The detail key is the column name with the
`detail_` marker removed and is matched against the scraped `details`
mapping exactly (the source uses a plain `dict.get`). -/
def compare_metadata (existing_row : Row) (new_doc : DocPatch) (detail_cols : List String) : Bool :=
  METADATA_FIELDS.any (fun f => !(existing_row.get f == new_doc.get f))
  || detail_cols.any (fun col =>
      !(existing_row.get col == detailGet new_doc.details (stripDetail col)))

/-- A scraped document as produced by `parse_case_document`:
`date`, `doc_name`, `doc_link` and the open `details` mapping. -/
structure ScrapedDoc where
  date : Val
  doc_name : Val
  doc_link : Val
  details : List (String × Val)
deriving DecidableEq, Repr

/-- A scraped case record: the case-level dictionary (everything except the
nested `documents` list) plus the parsed documents. -/
structure ScrapedCase where
  fields : List (String × Val)
  documents : List ScrapedDoc
deriving DecidableEq, Repr

/-- Reading `case.get(key)` on the case-level dictionary (missing key reads `None`). -/
def caseGet (c : ScrapedCase) (k : String) : Val := (c.fields.lookup k).getD .null

/-- The payload emitted for a new document: the case dictionary (minus
`documents`) merged with the document fields and both derived
identifiers. -/
structure NewDoc where
  caseFields : List (String × Val)
  doc_date : Val
  doc_name : Val
  doc_link : Val
  details : List (String × Val)
  arbitration_id : Val
  doc_id : String
deriving DecidableEq, Repr

/-- Per-document classification made inside the `compare_documents` loop. -/
inductive DocClass where
  | isNew (d : NewDoc)
  | isUpd (doc_id : String) (patch : DocPatch)
  | isUnch (doc_id : String)
deriving DecidableEq, Repr

/-- The document identifier a classification is about. -/
def DocClass.docId : DocClass → String
  | .isNew d => d.doc_id
  | .isUpd i _ => i
  | .isUnch i => i

/-- Bucket extractor: the payload appended to the `new` list. -/
def DocClass.newPayload : DocClass → Option NewDoc
  | .isNew d => some d
  | _ => none

/-- Bucket extractor: the pair appended to the `updated` list. -/
def DocClass.updPayload : DocClass → Option (String × DocPatch)
  | .isUpd i p => some (i, p)
  | _ => none

/-- Bucket extractor: the identifier appended to the `unchanged` list. -/
def DocClass.unchPayload : DocClass → Option String
  | .isUnch i => some i
  | _ => none

/-- The result dictionary of `compare_documents`. -/
structure CompareResult where
  new : List NewDoc
  updated : List (String × DocPatch)
  unchanged : List String
  new_cases : List Val
deriving DecidableEq, Repr

/-- Exception-propagating map: the embedding of a Python `for` loop whose
body can raise, collecting one result per element. -/
def mapE (f : α → Except Unit β) : List α → Except Unit (List β)
  | [] => .ok []
  | a :: l =>
    match f a with
    | .error e => .error e
    | .ok b =>
      match mapE f l with
      | .error e => .error e
      | .ok bs => .ok (b :: bs)

/-- The body of the inner document loop of `compare_documents`: skip a
document without a derivable identifier (`ok none`), otherwise classify it
as new, updated or unchanged.  When the identifier is already present the
existing row compared against is the first row bearing it
(`existing_by_doc_id.loc[doc_id]`, reduced with `.iloc[0]` on
duplicates). -/
def classifyDoc (df : DataFrame) (ids : List Val) (detail_cols : List String)
    (c : ScrapedCase) (arb : Val) (doc : ScrapedDoc) : Except Unit (Option DocClass) :=
  match generate_doc_id arb doc.doc_name with
  | .error e => .error e
  | .ok none => .ok none
  | .ok (some doc_id) =>
    if doc_id == "" then .ok none
    else if ids.contains (Val.str doc_id) then
      match df.rows.find? (fun r => r.get "doc_id" == Val.str doc_id) with
      | some row =>
        let patch : DocPatch :=
          { doc_date := doc.date, doc_name := doc.doc_name,
            doc_link := doc.doc_link, details := doc.details }
        if compare_metadata row patch detail_cols then .ok (some (.isUpd doc_id patch))
        else .ok (some (.isUnch doc_id))
      | none => .ok none
    else
      .ok (some (.isNew
        { caseFields := c.fields.filter (fun kv => !(kv.1 == "documents")),
          doc_date := doc.date, doc_name := doc.doc_name, doc_link := doc.doc_link,
          details := doc.details, arbitration_id := arb, doc_id := doc_id }))

/-- The body of the outer case loop of `compare_documents`: skip a case
whose year or short name is falsy, otherwise derive the arbitration id,
report the case URL when unseen, and classify every document. -/
def processCase (ids : List Val) (urls : List Val) (detail_cols : List String)
    (df : DataFrame) (c : ScrapedCase) : Except Unit (List DocClass × List Val) :=
  if !(caseGet c "year_of_initiation").truthy
      || !(caseGet c "short_case_name").truthy then .ok ([], [])
  else
    match generate_arbitration_id (caseGet c "year_of_initiation")
        (caseGet c "short_case_name") with
    | .error e => .error e
    | .ok arb =>
      match mapE (classifyDoc df ids detail_cols c arb) c.documents with
      | .error e => .error e
      | .ok opts =>
        .ok (opts.filterMap id,
          if (caseGet c "link_to_italaws_case_page").truthy
              && !(urls.contains (caseGet c "link_to_italaws_case_page"))
          then [caseGet c "link_to_italaws_case_page"] else [])

/-- Source `incremental.py`: `compare_documents` — partition the scraped documents
against the existing dataset into new / updated / unchanged, also
collecting previously unseen case URLs.  `Except.error ()` is an uncaught
exception of the Python loop (a truthy but unparseable year, or a truthy
non-string name). -/
def compare_documents (existing_df : DataFrame) (scraped_cases : List ScrapedCase) :
    Except Unit CompareResult :=
  let ids := get_existing_doc_ids existing_df
  let urls := get_existing_case_urls existing_df
  let detail_cols := extract_detail_columns existing_df
  match mapE (processCase ids urls detail_cols existing_df) scraped_cases with
  | .error e => .error e
  | .ok results =>
    let classes := (results.map Prod.fst).flatten
    .ok { new := classes.filterMap DocClass.newPayload,
          updated := classes.filterMap DocClass.updPayload,
          unchanged := classes.filterMap DocClass.unchPayload,
          new_cases := (results.map Prod.snd).flatten }

/-- Assignment `df.loc[doc_id, c] = v` on a frame whose index is the `doc_id` column:
sets the cell on every row bearing the identifier (pandas label-based
assignment writes all matching rows), creating the column on demand. -/
def setField (df : DataFrame) (doc_id : String) (c : String) (v : Val) : DataFrame :=
  { cols := if df.cols.contains c then df.cols else df.cols ++ [c],
    rows := df.rows.map (fun r => if r.get "doc_id" == Val.str doc_id then r.set c v else r) }

/-- One iteration of the update loop of `merge_updates`: overwrite the three
tracked fields and every detail field of the patch on the rows bearing the
identifier (no-op when the identifier is absent from the index). -/
def applyUpdate (df : DataFrame) (doc_id : String) (p : DocPatch) : DataFrame :=
  if df.rows.any (fun r => r.get "doc_id" == Val.str doc_id) then
    let df1 := setField df doc_id "doc_date" p.doc_date
    let df2 := setField df1 doc_id "doc_name" p.doc_name
    let df3 := setField df2 doc_id "doc_link" p.doc_link
    p.details.foldl (fun d kv => setField d doc_id ("detail_" ++ kv.1) kv.2) df3
  else df

/-- The row dictionary built for one new document in `merge_updates`:
the payload minus `details`, the two `*_clean` helper columns, one
`detail_*` column per detail key and the two null page-count columns.
The list is ordered so that a later Python assignment shadows an earlier
one under first-match lookup. -/
def mkNewRow (d : NewDoc) : Except Unit Row :=
  match pySnakeVal ((d.caseFields.lookup "short_case_name").getD (.str "")) with
  | .error e => .error e
  | .ok scn =>
    match pySnakeVal d.doc_name with
    | .error e => .error e
    | .ok dnc =>
      .ok ⟨[("adjusted_page_count", Val.null), ("page_count", Val.null)]
          ++ (d.details.reverse.map (fun kv => ("detail_" ++ kv.1, kv.2)))
          ++ [("doc_name_clean", Val.str dnc), ("short_case_name_clean", Val.str scn),
              ("doc_id", Val.str d.doc_id), ("arbitration_id", d.arbitration_id),
              ("doc_link", d.doc_link), ("doc_name", d.doc_name), ("doc_date", d.doc_date)]
          ++ d.caseFields⟩

/-- Column set of `pd.DataFrame(new_rows)`: union of the row keys in order
of first appearance. -/
def collectCols (rows : List Row) : List String :=
  rows.foldl (fun acc r =>
    r.cells.foldl (fun a kv => if a.contains kv.1 then a else a ++ [kv.1]) acc) []

/-- Source `incremental.py`: `merge_updates` — apply every update patch in place,
then append one row per new document, reconciling the column sets before
concatenation (cells absent from one side become null, which is the
default reading of an absent column here). -/
def merge_updates (existing_df : DataFrame) (res : CompareResult) : Except Unit DataFrame :=
  let df := res.updated.foldl (fun d ip => applyUpdate d ip.1 ip.2) existing_df
  if res.new.isEmpty then .ok df
  else
    match mapE mkNewRow res.new with
    | .error e => .error e
    | .ok newRows =>
      let newCols := collectCols newRows
      .ok { cols := df.cols ++ newCols.filter (fun cname => !(df.cols.contains cname)),
            rows := df.rows ++ newRows }

/-- The comparator that the specification's words describe for detail
fields: the detail column key is matched against the scraped `details`
mapping case-insensitively.  (Spec-side definition, for contrast with the
source's `compare_metadata`, which matches the key exactly.) -/
def lowerStr (s : String) : String := ⟨s.data.map Char.toLower⟩

/-- Case-insensitive `details` lookup, as the specification describes it. -/
def detailGetCI (details : List (String × Val)) (key : String) : Val :=
  ((details.find? (fun kv => lowerStr kv.1 == lowerStr key)).map Prod.snd).getD .null

/-- Spec-described variant of `compare_metadata` whose detail-key match is
case-insensitive (everything else as in the source). -/
def compare_metadata_ci_spec (existing_row : Row) (new_doc : DocPatch)
    (detail_cols : List String) : Bool :=
  METADATA_FIELDS.any (fun f => !(existing_row.get f == new_doc.get f))
  || detail_cols.any (fun col =>
      !(existing_row.get col == detailGetCI new_doc.details (stripDetail col)))

/-- Adjacency invariant of a collapsed string: of two neighbouring
characters at least one is alphanumeric (no two consecutive
separators). -/
def ne_dd (a b : Char) : Prop := isSnakeAl a = true ∨ isSnakeAl b = true

/-- The case-skip guard of `compare_documents`: a case is processed iff its
year and short name are both truthy. -/
def caseGuard (c : ScrapedCase) : Bool :=
  (caseGet c "year_of_initiation").truthy && (caseGet c "short_case_name").truthy

/-- Claim-side count for C2: the number of scraped documents with a
derivable identifier — documents with a truthy name inside a case with a
usable (truthy) year and case name. -/
def derivableCount (cs : List ScrapedCase) : Nat :=
  (cs.map (fun c =>
    if caseGuard c then (c.documents.filter (fun d => d.doc_name.truthy)).length else 0)).sum

/-- The identifiers derived for the documents of one scraped case (empty
when the case is skipped or its identifier derivation raises). -/
def docIdsOfCase (c : ScrapedCase) : List String :=
  if caseGuard c then
    match generate_arbitration_id (caseGet c "year_of_initiation")
        (caseGet c "short_case_name") with
    | .ok arb =>
      c.documents.filterMap (fun d =>
        match generate_doc_id arb d.doc_name with
        | .ok (some i) => if i == "" then none else some i
        | _ => none)
    | .error _ => []
  else []

/-- All document identifiers derivable from a scraped case list, in
processing order. -/
def allDerivedIds (cs : List ScrapedCase) : List String :=
  (cs.map docIdsOfCase).flatten

/-- The row-level effect of one update patch: overwrite the three tracked
fields, then every patched detail column. -/
def patchRow (r : Row) (p : DocPatch) : Row :=
  p.details.foldl (fun r kv => r.set ("detail_" ++ kv.1) kv.2)
    (((r.set "doc_date" p.doc_date).set "doc_name" p.doc_name).set "doc_link" p.doc_link)

/-- The row-level effect of the whole update loop: each patch in order is
applied to the rows bearing its identifier. -/
def multiPatch (ups : List (String × DocPatch)) (r : Row) : Row :=
  ups.foldl (fun r ip => if r.get "doc_id" == Val.str ip.1 then patchRow r ip.2 else r) r

/-- Empty comparison result (used as a `getD` default for concrete
instances). -/
def emptyRes : CompareResult := ⟨[], [], [], []⟩

/-- Empty data frame (used as a `getD` default for concrete instances). -/
def emptyDF : DataFrame := ⟨[], []⟩

/-- Concrete one-row dataset used by the C4 witness. -/
def wDF4 : DataFrame :=
  ⟨["doc_id", "doc_link"], [⟨[("doc_id", .str "d"), ("doc_link", .str "x")]⟩]⟩

/-- Concrete comparison result (one new document, one update patch) used by
the C4 and C9 witnesses. -/
def wRes4 : CompareResult :=
  ⟨[⟨[("short_case_name", .str "A")], .null, .str "B", .str "y", [], .str "2020_a", "2020_a_b"⟩],
   [("d", ⟨.null, .null, .str "z", []⟩)], [], []⟩

/-- The merged table of the C4/C9 witness instance. -/
def wM4 : DataFrame := (merge_updates wDF4 wRes4).toOption.getD emptyDF

/-- Existing dataset of the C1 counterexample: one document whose row holds
a non-null `detail_Foo` value. -/
def cxDF1 : DataFrame :=
  ⟨["doc_id", "doc_date", "doc_name", "doc_link", "link_to_italaws_case_page", "detail_Foo"],
   [⟨[("doc_id", .str "2020_a_b"), ("doc_date", .null), ("doc_name", .str "B"),
      ("doc_link", .str "x"), ("link_to_italaws_case_page", .str "u"),
      ("detail_Foo", .str "v")]⟩]⟩

/-- The C1 counterexample scrape: the same document, identical tracked
fields, but no `Foo` detail key. -/
def cxCase1 : ScrapedCase :=
  ⟨[("link_to_italaws_case_page", .str "u"), ("year_of_initiation", .int 2020),
    ("short_case_name", .str "A")],
   [⟨.null, .str "B", .str "x", []⟩]⟩

/-- First reconciliation of the C1 counterexample. -/
def cxRes1 : CompareResult := (compare_documents cxDF1 [cxCase1]).toOption.getD emptyRes

/-- Merged dataset of the C1 counterexample. -/
def cxM1 : DataFrame := (merge_updates cxDF1 cxRes1).toOption.getD emptyDF

/-- Second reconciliation of the C1 counterexample, against the merged
dataset. -/
def cxRes1b : CompareResult := (compare_documents cxM1 [cxCase1]).toOption.getD emptyRes

/-- Existing dataset of the C3 counterexample: one row. -/
def cxDF3 : DataFrame :=
  ⟨["doc_id", "doc_date", "doc_name", "doc_link", "link_to_italaws_case_page"],
   [⟨[("doc_id", .str "2020_a_b"), ("doc_date", .null), ("doc_name", .str "B"),
      ("doc_link", .str "x"), ("link_to_italaws_case_page", .null)]⟩]⟩

/-- The C3 counterexample scrape: two documents of the same case deriving
the same identifier, one identical to the stored row and one with a
different link. -/
def cxCase3 : ScrapedCase :=
  ⟨[("year_of_initiation", .int 2020), ("short_case_name", .str "A")],
   [⟨.null, .str "B", .str "x", []⟩, ⟨.null, .str "B", .str "y", []⟩]⟩

/-- The comparison result of the C3 counterexample. -/
def cxRes3 : CompareResult := (compare_documents cxDF3 [cxCase3]).toOption.getD emptyRes

/-- Existing dataset of the C5 counterexample: two rows with the same
document identifier and different links. -/
def cxDF5 : DataFrame :=
  ⟨["doc_id", "doc_date", "doc_name", "doc_link", "link_to_italaws_case_page"],
   [⟨[("doc_id", .str "2020_a_b"), ("doc_date", .null), ("doc_name", .str "B"),
      ("doc_link", .str "x"), ("link_to_italaws_case_page", .null)]⟩,
    ⟨[("doc_id", .str "2020_a_b"), ("doc_date", .null), ("doc_name", .str "B"),
      ("doc_link", .str "y"), ("link_to_italaws_case_page", .null)]⟩]⟩

/-- The C5 counterexample scrape: the document reappears with a new link. -/
def cxCase5 : ScrapedCase :=
  ⟨[("year_of_initiation", .int 2020), ("short_case_name", .str "A")],
   [⟨.null, .str "B", .str "z", []⟩]⟩

/-- The comparison result of the C5 counterexample. -/
def cxRes5 : CompareResult := (compare_documents cxDF5 [cxCase5]).toOption.getD emptyRes

/-- The merged dataset of the C5 counterexample. -/
def cxM5 : DataFrame := (merge_updates cxDF5 cxRes5).toOption.getD emptyDF

/-- Scenario-A style instance: an empty dataset and one scraped case with
one document (shared witness input for C1, C2 and C3). -/
def wDFA : DataFrame :=
  ⟨["doc_id", "doc_date", "doc_name", "doc_link", "link_to_italaws_case_page"], []⟩

/-- The scenario-A scraped case. -/
def wCaseA : ScrapedCase :=
  ⟨[("link_to_italaws_case_page", .str "u"), ("year_of_initiation", .int 2020),
    ("short_case_name", .str "Acme v. State")],
   [⟨.null, .str "Award", .str "a.pdf", []⟩]⟩

/-- First reconciliation of the scenario-A instance. -/
def wResA : CompareResult := (compare_documents wDFA [wCaseA]).toOption.getD emptyRes

/-- Merged dataset of the scenario-A instance. -/
def wMA : DataFrame := (merge_updates wDFA wResA).toOption.getD emptyDF

/-- Second reconciliation of the scenario-A instance. -/
def wResA2 : CompareResult := (compare_documents wMA [wCaseA]).toOption.getD emptyRes

section MapELemmas

variable {α β : Type}

theorem mapE_ok_length {f : α → Except Unit β} :
    ∀ {l : List α} {ys : List β}, mapE f l = .ok ys → ys.length = l.length := by
  intro l
  induction l with
  | nil => intro ys h; simp [mapE] at h; simp [← h]
  | cons a l ih =>
    intro ys h
    simp only [mapE] at h
    cases hfa : f a with
    | error e => rw [hfa] at h; exact absurd h (by simp)
    | ok b =>
      rw [hfa] at h
      cases hml : mapE f l with
      | error e => rw [hml] at h; exact absurd h (by simp)
      | ok bs =>
        rw [hml] at h
        cases h
        simp [ih hml]

theorem mapE_ok_mem_right {f : α → Except Unit β} :
    ∀ {l : List α} {ys : List β}, mapE f l = .ok ys → ∀ b ∈ ys, ∃ a ∈ l, f a = .ok b := by
  intro l
  induction l with
  | nil => intro ys h; simp [mapE] at h; subst h; simp
  | cons a l ih =>
    intro ys h
    simp only [mapE] at h
    cases hfa : f a with
    | error e => rw [hfa] at h; exact absurd h (by simp)
    | ok b =>
      rw [hfa] at h
      cases hml : mapE f l with
      | error e => rw [hml] at h; exact absurd h (by simp)
      | ok bs =>
        rw [hml] at h
        cases h
        intro y hy
        rcases List.mem_cons.mp hy with h1 | h2
        · exact ⟨a, List.mem_cons_self _ _, by rw [hfa, h1]⟩
        · rcases ih hml y h2 with ⟨x, hx, hfx⟩
          exact ⟨x, List.mem_cons_of_mem _ hx, hfx⟩

theorem mapE_ok_mem_left {f : α → Except Unit β} :
    ∀ {l : List α} {ys : List β}, mapE f l = .ok ys → ∀ a ∈ l, ∃ b ∈ ys, f a = .ok b := by
  intro l
  induction l with
  | nil => intro ys _ a ha; exact absurd ha (by simp)
  | cons a l ih =>
    intro ys h
    simp only [mapE] at h
    cases hfa : f a with
    | error e => rw [hfa] at h; exact absurd h (by simp)
    | ok b =>
      rw [hfa] at h
      cases hml : mapE f l with
      | error e => rw [hml] at h; exact absurd h (by simp)
      | ok bs =>
        rw [hml] at h
        cases h
        intro x hx
        rcases List.mem_cons.mp hx with h1 | h2
        · exact ⟨b, List.mem_cons_self _ _, by rw [h1, hfa]⟩
        · rcases ih hml x h2 with ⟨y, hy, hfy⟩
          exact ⟨y, List.mem_cons_of_mem _ hy, hfy⟩

theorem mapE_ok_forall₂ {f : α → Except Unit β} :
    ∀ {l : List α} {ys : List β}, mapE f l = .ok ys →
      List.Forall₂ (fun a b => f a = .ok b) l ys := by
  intro l
  induction l with
  | nil => intro ys h; simp [mapE] at h; simp [← h]
  | cons a l ih =>
    intro ys h
    simp only [mapE] at h
    cases hfa : f a with
    | error e => rw [hfa] at h; exact absurd h (by simp)
    | ok b =>
      rw [hfa] at h
      cases hml : mapE f l with
      | error e => rw [hml] at h; exact absurd h (by simp)
      | ok bs =>
        rw [hml] at h
        cases h
        exact List.Forall₂.cons hfa (ih hml)

end MapELemmas

section ClassifyLemmas

theorem generate_doc_id_ok_some {a dn : Val} {i : String}
    (h : generate_doc_id a dn = .ok (some i)) :
    ∃ s, dn = .str s ∧ s ≠ "" ∧ i = a.fstr ++ "_" ++ to_snake_case s := by
  cases dn with
  | null => simp [generate_doc_id, Val.truthy] at h
  | int n =>
    by_cases hn : n = 0
    · subst hn; simp [generate_doc_id, Val.truthy] at h
    · simp [generate_doc_id, Val.truthy, hn] at h
  | str s =>
    by_cases hs : s = ""
    · subst hs; simp [generate_doc_id, Val.truthy] at h
    · refine ⟨s, rfl, hs, ?_⟩
      simp [generate_doc_id, Val.truthy, hs] at h
      exact h.symm

theorem generate_doc_id_ok_some_ne_empty {a dn : Val} {i : String}
    (h : generate_doc_id a dn = .ok (some i)) : i ≠ "" := by
  obtain ⟨s, _, _, hi⟩ := generate_doc_id_ok_some h
  subst hi
  intro he
  have hlen := congrArg String.length he
  rw [String.length_append, String.length_append] at hlen
  have h1 : ("_" : String).length = 1 := by decide
  have h0 : ("" : String).length = 0 := by decide
  omega

theorem generate_doc_id_truthy_not_none {a dn : Val} (hdn : dn.truthy = true) :
    generate_doc_id a dn ≠ .ok none := by
  cases dn with
  | null => simp [Val.truthy] at hdn
  | int n => simp [generate_doc_id, hdn]
  | str s => simp [generate_doc_id, hdn]

theorem classify_none_of_falsy (df : DataFrame) (ids : List Val) (cols : List String)
    (c : ScrapedCase) (arb : Val) {doc : ScrapedDoc} (hdn : doc.doc_name.truthy = false) :
    classifyDoc df ids cols c arb doc = .ok none := by
  unfold classifyDoc
  rw [show generate_doc_id arb doc.doc_name = .ok none from by
    simp [generate_doc_id, hdn]]

theorem contains_ids_find {df : DataFrame} {i : String}
    (h : (get_existing_doc_ids df).contains (Val.str i) = true) :
    ∃ row, df.rows.find? (fun r => r.get "doc_id" == Val.str i) = some row := by
  have hmem : Val.str i ∈ get_existing_doc_ids df := by
    simpa using h
  unfold get_existing_doc_ids at hmem
  obtain ⟨hmem2, -⟩ := List.mem_filter.mp hmem
  obtain ⟨row, hrow, heq⟩ := List.mem_map.mp hmem2
  have : (df.rows.find? (fun r => r.get "doc_id" == Val.str i)).isSome :=
    List.find?_isSome.mpr ⟨row, hrow, by simp [heq]⟩
  exact Option.isSome_iff_exists.mp this

theorem classifyDoc_error_of_gen_error {df : DataFrame} {ids : List Val} {cols : List String}
    {c : ScrapedCase} {arb : Val} {doc : ScrapedDoc} {e : Unit}
    (hg : generate_doc_id arb doc.doc_name = .error e) :
    classifyDoc df ids cols c arb doc = .error e := by
  unfold classifyDoc
  simp only [hg]

theorem classifyDoc_eq_of_gen_some {df : DataFrame} {ids : List Val} {cols : List String}
    {c : ScrapedCase} {arb : Val} {doc : ScrapedDoc} {i : String}
    (hg : generate_doc_id arb doc.doc_name = .ok (some i)) (hne : i ≠ "") :
    classifyDoc df ids cols c arb doc =
      (if ids.contains (Val.str i) then
        match df.rows.find? (fun r => r.get "doc_id" == Val.str i) with
        | some row =>
          if compare_metadata row ⟨doc.date, doc.doc_name, doc.doc_link, doc.details⟩ cols
          then .ok (some (.isUpd i ⟨doc.date, doc.doc_name, doc.doc_link, doc.details⟩))
          else .ok (some (.isUnch i))
        | none => .ok none
      else
        .ok (some (.isNew ⟨c.fields.filter (fun kv => !(kv.1 == "documents")),
          doc.date, doc.doc_name, doc.doc_link, doc.details, arb, i⟩))) := by
  have hb : (i == "") = false := by simpa using hne
  unfold classifyDoc
  simp only [hg, hb, Bool.false_eq_true, if_false]

theorem classify_ok_truthy {df : DataFrame} {ids : List Val} {cols : List String}
    {c : ScrapedCase} {arb : Val} {doc : ScrapedDoc} {opt : Option DocClass}
    (h : classifyDoc df ids cols c arb doc = .ok opt)
    (hdn : doc.doc_name.truthy = true) (hids : ids = get_existing_doc_ids df) :
    ∃ cl, opt = some cl := by
  cases hg : generate_doc_id arb doc.doc_name with
  | error e => rw [classifyDoc_error_of_gen_error hg] at h; exact absurd h (by simp)
  | ok o =>
    cases o with
    | none => exact absurd hg (generate_doc_id_truthy_not_none hdn)
    | some i =>
      rw [classifyDoc_eq_of_gen_some hg (generate_doc_id_ok_some_ne_empty hg)] at h
      by_cases hc : ids.contains (Val.str i)
      · rw [if_pos hc] at h
        subst hids
        obtain ⟨row, hrow⟩ := contains_ids_find hc
        simp only [hrow] at h
        by_cases hcmp : compare_metadata row
            ⟨doc.date, doc.doc_name, doc.doc_link, doc.details⟩ cols
        · rw [if_pos hcmp] at h
          exact ⟨_, by injection h with h2; exact h2.symm⟩
        · rw [if_neg hcmp] at h
          exact ⟨_, by injection h with h2; exact h2.symm⟩
      · rw [if_neg hc] at h
        exact ⟨_, by injection h with h2; exact h2.symm⟩

theorem classify_ok_some {df : DataFrame} {ids : List Val} {cols : List String}
    {c : ScrapedCase} {arb : Val} {doc : ScrapedDoc} {cl : DocClass}
    (h : classifyDoc df ids cols c arb doc = .ok (some cl)) :
    generate_doc_id arb doc.doc_name = .ok (some cl.docId)
    ∧ ((ids.contains (Val.str cl.docId) = false ∧ ∃ d, cl = .isNew d)
       ∨ (ids.contains (Val.str cl.docId) = true ∧ ∀ d, cl ≠ .isNew d)) := by
  cases hg : generate_doc_id arb doc.doc_name with
  | error e => rw [classifyDoc_error_of_gen_error hg] at h; exact absurd h (by simp)
  | ok o =>
    cases o with
    | none =>
      exfalso
      unfold classifyDoc at h
      rw [hg] at h
      simp at h
    | some i =>
      rw [classifyDoc_eq_of_gen_some hg (generate_doc_id_ok_some_ne_empty hg)] at h
      by_cases hc : ids.contains (Val.str i)
      · rw [if_pos hc] at h
        cases hf : df.rows.find? (fun r => r.get "doc_id" == Val.str i) with
        | none => simp only [hf] at h; exact absurd h (by simp)
        | some row =>
          simp only [hf] at h
          by_cases hcmp : compare_metadata row
              ⟨doc.date, doc.doc_name, doc.doc_link, doc.details⟩ cols
          · rw [if_pos hcmp] at h
            injection h with h2
            injection h2 with h3
            subst h3
            exact ⟨rfl, Or.inr ⟨hc, by intro d hd; cases hd⟩⟩
          · rw [if_neg hcmp] at h
            injection h with h2
            injection h2 with h3
            subst h3
            exact ⟨rfl, Or.inr ⟨hc, by intro d hd; cases hd⟩⟩
      · rw [if_neg hc] at h
        injection h with h2
        injection h2 with h3
        subst h3
        exact ⟨rfl, Or.inl ⟨by simpa using hc, ⟨_, rfl⟩⟩⟩

end ClassifyLemmas

section CaseLemmas

theorem processCase_ok_skip {ids urls : List Val} {cols : List String} {df : DataFrame}
    {c : ScrapedCase} {pr : List DocClass × List Val}
    (h : processCase ids urls cols df c = .ok pr) (hg : caseGuard c = false) :
    pr = ([], []) := by
  unfold processCase at h
  have hcond : (!(caseGet c "year_of_initiation").truthy
      || !(caseGet c "short_case_name").truthy) = true := by
    unfold caseGuard at hg
    cases hy : (caseGet c "year_of_initiation").truthy <;>
      cases hn : (caseGet c "short_case_name").truthy <;> simp_all
  rw [if_pos hcond] at h
  injection h with h2
  exact h2.symm

theorem processCase_ok_go {ids urls : List Val} {cols : List String} {df : DataFrame}
    {c : ScrapedCase} {pr : List DocClass × List Val}
    (h : processCase ids urls cols df c = .ok pr) (hg : caseGuard c = true) :
    ∃ arb opts,
      generate_arbitration_id (caseGet c "year_of_initiation")
          (caseGet c "short_case_name") = .ok arb
      ∧ mapE (classifyDoc df ids cols c arb) c.documents = .ok opts
      ∧ pr.1 = opts.filterMap id
      ∧ pr.2 = (if (caseGet c "link_to_italaws_case_page").truthy
                  && !(urls.contains (caseGet c "link_to_italaws_case_page"))
                then [caseGet c "link_to_italaws_case_page"] else []) := by
  unfold processCase at h
  have hcond : (!(caseGet c "year_of_initiation").truthy
      || !(caseGet c "short_case_name").truthy) = false := by
    unfold caseGuard at hg
    cases hy : (caseGet c "year_of_initiation").truthy <;>
      cases hn : (caseGet c "short_case_name").truthy <;> simp_all
  rw [hcond] at h
  simp only [Bool.false_eq_true, if_false] at h
  cases ha : generate_arbitration_id (caseGet c "year_of_initiation")
      (caseGet c "short_case_name") with
  | error e => simp only [ha] at h; exact absurd h (by simp)
  | ok arb =>
    simp only [ha] at h
    cases hm : mapE (classifyDoc df ids cols c arb) c.documents with
    | error e => simp only [hm] at h; exact absurd h (by simp)
    | ok opts =>
      simp only [hm] at h
      injection h with h2
      exact ⟨arb, opts, rfl, hm, by rw [← h2], by rw [← h2]⟩

theorem filterMap_id_length_of_rel {df : DataFrame} {ids : List Val} {cols : List String}
    {c : ScrapedCase} {arb : Val} (hids : ids = get_existing_doc_ids df) :
    ∀ (docs : List ScrapedDoc) (opts : List (Option DocClass)),
      List.Forall₂ (fun doc opt => classifyDoc df ids cols c arb doc = .ok opt) docs opts →
      (opts.filterMap id).length = (docs.filter (fun d => d.doc_name.truthy)).length := by
  intro docs opts h
  induction h with
  | nil => rfl
  | @cons doc opt docs opts hrel hrest ih =>
    by_cases hdn : doc.doc_name.truthy
    · obtain ⟨cl, hcl⟩ := classify_ok_truthy hrel hdn hids
      subst hcl
      simp only [List.filterMap_cons, List.filter_cons, hdn, if_true, id]
      simp [ih]
    · have hdn' : doc.doc_name.truthy = false := by simpa using hdn
      have h2 := classify_none_of_falsy df ids cols c arb hdn'
      have h3 : (Except.ok (none : Option DocClass) : Except Unit (Option DocClass))
          = .ok opt := h2.symm.trans hrel
      have hopt : opt = none := by injection h3 with h4; exact h4.symm
      subst hopt
      simp only [List.filterMap_cons, List.filter_cons, id]
      rw [if_neg hdn]
      exact ih

theorem processCase_ok_length {ids urls : List Val} {cols : List String} {df : DataFrame}
    {c : ScrapedCase} {pr : List DocClass × List Val}
    (h : processCase ids urls cols df c = .ok pr) (hids : ids = get_existing_doc_ids df) :
    pr.1.length = if caseGuard c then
      (c.documents.filter (fun d => d.doc_name.truthy)).length else 0 := by
  by_cases hg : caseGuard c
  · obtain ⟨arb, opts, -, hm, hp1, -⟩ := processCase_ok_go h hg
    rw [hp1, if_pos hg]
    exact filterMap_id_length_of_rel hids _ _ (mapE_ok_forall₂ hm)
  · rw [processCase_ok_skip h (eq_false_of_ne_true hg)]
    simp [hg]

theorem bucket_length (classes : List DocClass) :
    (classes.filterMap DocClass.newPayload).length
      + (classes.filterMap DocClass.updPayload).length
      + (classes.filterMap DocClass.unchPayload).length = classes.length := by
  induction classes with
  | nil => rfl
  | cons cl rest ih =>
    cases cl <;>
      simp only [List.filterMap_cons, DocClass.newPayload, DocClass.updPayload,
        DocClass.unchPayload, List.length_cons] <;>
      omega

theorem compare_ok_elim {df : DataFrame} {cs : List ScrapedCase} {r : CompareResult}
    (h : compare_documents df cs = .ok r) :
    ∃ results, mapE (processCase (get_existing_doc_ids df) (get_existing_case_urls df)
        (extract_detail_columns df) df) cs = .ok results
      ∧ r.new = ((results.map Prod.fst).flatten).filterMap DocClass.newPayload
      ∧ r.updated = ((results.map Prod.fst).flatten).filterMap DocClass.updPayload
      ∧ r.unchanged = ((results.map Prod.fst).flatten).filterMap DocClass.unchPayload := by
  unfold compare_documents at h
  cases hm : mapE (processCase (get_existing_doc_ids df) (get_existing_case_urls df)
      (extract_detail_columns df) df) cs with
  | error e => simp only [hm] at h; exact absurd h (by simp)
  | ok results =>
    simp only [hm] at h
    injection h with h2
    exact ⟨results, rfl, by rw [← h2], by rw [← h2], by rw [← h2]⟩

theorem sum_lengths_of_rel {ids urls : List Val} {cols : List String} {df : DataFrame}
    (hids : ids = get_existing_doc_ids df) :
    ∀ (cs : List ScrapedCase) (results : List (List DocClass × List Val)),
      List.Forall₂ (fun c pr => processCase ids urls cols df c = .ok pr) cs results →
      ((results.map Prod.fst).map List.length).sum
        = (cs.map (fun c => if caseGuard c then
            (c.documents.filter (fun d => d.doc_name.truthy)).length else 0)).sum := by
  intro cs results h
  induction h with
  | nil => rfl
  | @cons c pr cs results hrel hrest ih =>
    simp only [List.map_cons, List.sum_cons]
    rw [processCase_ok_length hrel hids, ih]

end CaseLemmas

/-- Claim C2 — partition totality: whenever `compare_documents` completes,
`|new| + |updated| + |unchanged|` equals the number of scraped documents
with a derivable identifier (truthy document name inside a case with a
usable year and case name); skipped documents are counted nowhere. -/
theorem compare_documents_partition_totality (df : DataFrame) (cs : List ScrapedCase)
    (r : CompareResult) (h : compare_documents df cs = .ok r) :
    r.new.length + r.updated.length + r.unchanged.length = derivableCount cs := by
  obtain ⟨results, hm, hnew, hupd, hunch⟩ := compare_ok_elim h
  rw [hnew, hupd, hunch, bucket_length]
  rw [List.length_flatten]
  unfold derivableCount
  exact sum_lengths_of_rel rfl cs results (mapE_ok_forall₂ hm)

/-- Witness for C2: the scenario-A instance — one derivable scraped
document against an empty dataset — gives `1 + 0 + 0 = 1`. -/
theorem compare_documents_partition_totality_witness :
    wResA.new.length + wResA.updated.length + wResA.unchanged.length
      = derivableCount [wCaseA] :=
  compare_documents_partition_totality wDFA [wCaseA] wResA (by decide)

section DocIdLemmas

theorem generate_doc_id_ok_none {a dn : Val} (h : generate_doc_id a dn = .ok none) :
    dn.truthy = false := by
  cases hdn : dn.truthy
  · rfl
  · exact absurd h (generate_doc_id_truthy_not_none hdn)

theorem filterMap_id_docIds_of_rel {df : DataFrame} {ids : List Val} {cols : List String}
    {c : ScrapedCase} {arb : Val} (hids : ids = get_existing_doc_ids df) :
    ∀ (docs : List ScrapedDoc) (opts : List (Option DocClass)),
      List.Forall₂ (fun doc opt => classifyDoc df ids cols c arb doc = .ok opt) docs opts →
      (opts.filterMap id).map DocClass.docId
        = docs.filterMap (fun d =>
            match generate_doc_id arb d.doc_name with
            | .ok (some i) => if i == "" then none else some i
            | _ => none) := by
  intro docs opts h
  induction h with
  | nil => rfl
  | @cons doc opt docs opts hrel hrest ih =>
    cases hg : generate_doc_id arb doc.doc_name with
    | error e =>
      rw [classifyDoc_error_of_gen_error hg] at hrel
      exact absurd hrel (by simp)
    | ok o =>
      cases o with
      | none =>
        have hdn : doc.doc_name.truthy = false := generate_doc_id_ok_none hg
        have h2 := classify_none_of_falsy df ids cols c arb hdn
        have h3 : (Except.ok (none : Option DocClass) : Except Unit (Option DocClass))
            = .ok opt := h2.symm.trans hrel
        have hopt : opt = none := by injection h3 with h4; exact h4.symm
        subst hopt
        simp only [List.filterMap_cons, hg, id]
        exact ih
      | some i =>
        have hne : i ≠ "" := generate_doc_id_ok_some_ne_empty hg
        have htr : doc.doc_name.truthy = true := by
          obtain ⟨s, hdn, hs, -⟩ := generate_doc_id_ok_some hg
          rw [hdn]
          simpa [Val.truthy] using hs
        obtain ⟨cl, hcl⟩ := classify_ok_truthy hrel htr hids
        subst hcl
        have hdocId : cl.docId = i := by
          have := (classify_ok_some hrel).1
          rw [hg] at this
          injection this with h2
          injection h2 with h3
          exact h3.symm
        simp only [List.filterMap_cons, hg, id]
        rw [show (i == "") = false from by simpa using hne]
        simp only [Bool.false_eq_true, if_false]
        rw [List.map_cons, hdocId, ih]

theorem processCase_ok_docIds {ids urls : List Val} {cols : List String} {df : DataFrame}
    {c : ScrapedCase} {pr : List DocClass × List Val}
    (h : processCase ids urls cols df c = .ok pr) (hids : ids = get_existing_doc_ids df) :
    pr.1.map DocClass.docId = docIdsOfCase c := by
  by_cases hg : caseGuard c
  · obtain ⟨arb, opts, harb, hm, hp1, -⟩ := processCase_ok_go h hg
    rw [hp1]
    unfold docIdsOfCase
    rw [if_pos hg]
    simp only [harb]
    exact filterMap_id_docIds_of_rel hids _ _ (mapE_ok_forall₂ hm)
  · rw [processCase_ok_skip h (eq_false_of_ne_true hg)]
    simp [docIdsOfCase, hg]

theorem flatten_docIds_of_rel {ids urls : List Val} {cols : List String} {df : DataFrame}
    (hids : ids = get_existing_doc_ids df) :
    ∀ (cs : List ScrapedCase) (results : List (List DocClass × List Val)),
      List.Forall₂ (fun c pr => processCase ids urls cols df c = .ok pr) cs results →
      ((results.map Prod.fst).flatten).map DocClass.docId = allDerivedIds cs := by
  intro cs results h
  induction h with
  | nil => rfl
  | @cons c pr cs results hrel hrest ih =>
    simp only [List.map_cons, List.flatten_cons, List.map_append]
    rw [processCase_ok_docIds hrel hids, ih]
    rfl

theorem bucket_perm (classes : List DocClass) :
    ((classes.filterMap DocClass.newPayload).map NewDoc.doc_id
      ++ ((classes.filterMap DocClass.updPayload).map Prod.fst
        ++ classes.filterMap DocClass.unchPayload)).Perm
      (classes.map DocClass.docId) := by
  induction classes with
  | nil => simp
  | cons cl rest ih =>
    cases cl with
    | isNew d =>
      simp only [List.filterMap_cons, DocClass.newPayload, DocClass.updPayload,
        DocClass.unchPayload, List.map_cons, List.cons_append, DocClass.docId]
      exact ih.cons _
    | isUpd i p =>
      simp only [List.filterMap_cons, DocClass.newPayload, DocClass.updPayload,
        DocClass.unchPayload, List.map_cons, List.cons_append, DocClass.docId]
      exact (List.perm_middle).trans (ih.cons _)
    | isUnch i =>
      simp only [List.filterMap_cons, DocClass.newPayload, DocClass.updPayload,
        DocClass.unchPayload, List.map_cons, List.cons_append, DocClass.docId]
      refine (List.Perm.append_left _ List.perm_middle).trans
        ((List.perm_middle).trans (ih.cons _))

theorem processCase_mem_class {ids urls : List Val} {cols : List String} {df : DataFrame}
    {c : ScrapedCase} {pr : List DocClass × List Val} {cl : DocClass}
    (h : processCase ids urls cols df c = .ok pr) (hcl : cl ∈ pr.1) :
    ∃ arb doc, doc ∈ c.documents ∧ caseGuard c = true
      ∧ generate_arbitration_id (caseGet c "year_of_initiation")
          (caseGet c "short_case_name") = .ok arb
      ∧ classifyDoc df ids cols c arb doc = .ok (some cl) := by
  by_cases hg : caseGuard c
  · obtain ⟨arb, opts, harb, hm, hp1, -⟩ := processCase_ok_go h hg
    rw [hp1] at hcl
    obtain ⟨opt, hopt, hid⟩ := List.mem_filterMap.mp hcl
    obtain ⟨doc, hdoc, hcls⟩ := mapE_ok_mem_right hm opt hopt
    refine ⟨arb, doc, hdoc, hg, harb, ?_⟩
    rw [hcls]
    exact congrArg Except.ok (by simpa using hid)
  · rw [processCase_ok_skip h (eq_false_of_ne_true hg)] at hcl
    exact absurd hcl (by simp)

theorem results_mem_class {ids urls : List Val} {cols : List String} {df : DataFrame}
    {cs : List ScrapedCase} {results : List (List DocClass × List Val)} {cl : DocClass}
    (hm : mapE (processCase ids urls cols df) cs = .ok results)
    (hcl : cl ∈ (results.map Prod.fst).flatten) :
    ∃ c, c ∈ cs ∧ ∃ arb doc, doc ∈ c.documents ∧ caseGuard c = true
      ∧ generate_arbitration_id (caseGet c "year_of_initiation")
          (caseGet c "short_case_name") = .ok arb
      ∧ classifyDoc df ids cols c arb doc = .ok (some cl) := by
  obtain ⟨l, hl, hcl2⟩ := List.mem_flatten.mp hcl
  obtain ⟨pr, hpr, hfst⟩ := List.mem_map.mp hl
  obtain ⟨c, hc, hpc⟩ := mapE_ok_mem_right hm pr hpr
  subst hfst
  obtain ⟨arb, doc, hdoc, hg, harb, hcls⟩ := processCase_mem_class hpc hcl2
  exact ⟨c, hc, arb, doc, hdoc, hg, harb, hcls⟩

end DocIdLemmas

/-- Claim C3 (amended) — partition exclusivity: no identifier appears both
in `new` and in `updated` or `unchanged`; however, when two scraped
documents derive the same identifier already present in the dataset, that
identifier can appear in both `updated` and `unchanged`.  When all
derivable scraped documents derive pairwise-distinct identifiers, the
concatenation of the three identifier lists has no duplicate, so no
identifier appears in more than one list. -/
theorem compare_documents_exclusivity (df : DataFrame) (cs : List ScrapedCase)
    (r : CompareResult) (h : compare_documents df cs = .ok r) :
    (∀ i, i ∈ r.new.map NewDoc.doc_id →
       i ∉ r.updated.map Prod.fst ∧ i ∉ r.unchanged)
    ∧ ((allDerivedIds cs).Nodup →
        (r.new.map NewDoc.doc_id ++ (r.updated.map Prod.fst ++ r.unchanged)).Nodup) := by
  obtain ⟨results, hm, hnew, hupd, hunch⟩ := compare_ok_elim h
  constructor
  · intro i hiN
    have hcontF : (get_existing_doc_ids df).contains (Val.str i) = false := by
      rw [hnew] at hiN
      obtain ⟨d, hdmem, hdid⟩ := List.mem_map.mp hiN
      obtain ⟨clN, hclNmem, hclN⟩ := List.mem_filterMap.mp hdmem
      have hclN' : clN = .isNew d := by
        cases clN with
        | isNew d' =>
          have : d' = d := by simpa [DocClass.newPayload] using hclN
          rw [this]
        | isUpd i' p => simp [DocClass.newPayload] at hclN
        | isUnch i' => simp [DocClass.newPayload] at hclN
      subst hclN'
      obtain ⟨c, -, arb, doc, -, -, -, hcls⟩ := results_mem_class hm hclNmem
      rcases (classify_ok_some hcls).2 with ⟨hc, -⟩ | ⟨-, hno⟩
      · rw [show (DocClass.isNew d).docId = d.doc_id from rfl] at hc
        rw [hdid] at hc
        exact hc
      · exact absurd rfl (hno d)
    constructor
    · intro hiU
      rw [hupd] at hiU
      obtain ⟨ip, hipmem, hipfst⟩ := List.mem_map.mp hiU
      obtain ⟨clU, hclUmem, hclU⟩ := List.mem_filterMap.mp hipmem
      obtain ⟨i', p, hclU'⟩ : ∃ i' p, clU = .isUpd i' p := by
        cases clU with
        | isUpd i' p => exact ⟨i', p, rfl⟩
        | isNew d => simp [DocClass.updPayload] at hclU
        | isUnch i' => simp [DocClass.updPayload] at hclU
      subst hclU'
      have hi' : i' = i := by
        have : (i', p) = ip := by simpa [DocClass.updPayload] using hclU
        rw [← hipfst, ← this]
      obtain ⟨c, -, arb, doc, -, -, -, hcls⟩ := results_mem_class hm hclUmem
      rcases (classify_ok_some hcls).2 with ⟨hc, d, hd⟩ | ⟨hc, -⟩
      · cases hd
      · rw [show (DocClass.isUpd i' p).docId = i' from rfl, hi'] at hc
        rw [hc] at hcontF
        cases hcontF
    · intro hiC
      rw [hunch] at hiC
      obtain ⟨clC, hclCmem, hclC⟩ := List.mem_filterMap.mp hiC
      have hclC' : clC = .isUnch i := by
        cases clC with
        | isUnch i' =>
          have : i' = i := by simpa [DocClass.unchPayload] using hclC
          rw [this]
        | isNew d => simp [DocClass.unchPayload] at hclC
        | isUpd i' p => simp [DocClass.unchPayload] at hclC
      subst hclC'
      obtain ⟨c, -, arb, doc, -, -, -, hcls⟩ := results_mem_class hm hclCmem
      rcases (classify_ok_some hcls).2 with ⟨hc, d, hd⟩ | ⟨hc, -⟩
      · cases hd
      · rw [show (DocClass.isUnch i).docId = i from rfl] at hc
        rw [hc] at hcontF
        cases hcontF
  · intro hnd
    rw [hnew, hupd, hunch]
    apply (bucket_perm ((results.map Prod.fst).flatten)).nodup_iff.mpr
    rw [flatten_docIds_of_rel rfl cs results (mapE_ok_forall₂ hm)]
    exact hnd

/-- Claim C3 counterexample: with two scraped documents deriving the same
identifier (same case, same document name, different links), the
identifier `2020_a_b` lands in `unchanged` (first document identical) and
in `updated` (second document differs), so it appears in two of the three
lists. -/
theorem compare_documents_exclusivity_cx :
    compare_documents cxDF3 [cxCase3] = .ok cxRes3
    ∧ "2020_a_b" ∈ cxRes3.unchanged
    ∧ "2020_a_b" ∈ cxRes3.updated.map Prod.fst := by
  refine ⟨by decide, by decide, by decide⟩

/-- Witness for C3 (amended): in the scenario-A run the lone new
identifier appears in neither `updated` nor `unchanged`. -/
theorem compare_documents_exclusivity_witness :
    "2020_acme_v_state_award" ∉ wResA.updated.map Prod.fst
    ∧ "2020_acme_v_state_award" ∉ wResA.unchanged :=
  (compare_documents_exclusivity wDFA [wCaseA] wResA (by decide)).1
    "2020_acme_v_state_award" (by decide)

section RowSetLemmas

theorem map_eq_self_of_eq_id {α : Type} {f : α → α} :
    ∀ l : List α, (∀ a ∈ l, f a = a) → l.map f = l := by
  intro l
  induction l with
  | nil => intro _; rfl
  | cons a rest ih =>
    intro h
    rw [List.map_cons, h a (List.mem_cons_self _ _),
      ih (fun b hb => h b (List.mem_cons_of_mem _ hb))]

theorem Row.get_set_self (r : Row) (c : String) (v : Val) : (r.set c v).get c = v := by
  simp [Row.get, Row.set, List.lookup_cons]

theorem lookup_filter_ne {c c' : String} (h : c' ≠ c) :
    ∀ cells : List (String × Val),
      (cells.filter (fun kv => !(kv.1 == c))).lookup c' = cells.lookup c' := by
  intro cells
  induction cells with
  | nil => rfl
  | cons kv rest ih =>
    rcases kv with ⟨k, v⟩
    by_cases hk : k = c
    · subst hk
      rw [List.filter_cons]
      rw [show (!((k, v).1 == k)) = false from by simp]
      simp only [Bool.false_eq_true, if_false]
      rw [ih, List.lookup_cons]
      rw [show (c' == k) = false from by simpa using h]
    · rw [List.filter_cons]
      rw [show (!((k, v).1 == c)) = true from by simpa using hk]
      simp only [if_true]
      rw [List.lookup_cons, List.lookup_cons]
      cases hck : c' == k with
      | true => simp only [hck]
      | false => simp only [hck]; exact ih

theorem Row.get_set_ne (r : Row) {c c' : String} (v : Val) (h : c' ≠ c) :
    (r.set c v).get c' = r.get c' := by
  simp only [Row.get, Row.set]
  rw [List.lookup_cons]
  rw [show (c' == c) = false from by simpa using h]
  simp only []
  rw [lookup_filter_ne h]

theorem detail_prefixed_ne (k : String) (X : String) (hX : X.data[1]? ≠ some 'e') :
    "detail_" ++ k ≠ X := by
  intro h
  apply hX
  rw [← h, String.data_append]
  rw [List.getElem?_append_left (by decide)]
  rfl

theorem detail_append_inj {a b : String} (h : "detail_" ++ a = "detail_" ++ b) : a = b := by
  have h2 := congrArg String.data h
  rw [String.data_append, String.data_append] at h2
  have h3 := List.append_cancel_left h2
  cases a
  cases b
  exact congrArg String.mk h3

theorem set_fold_get_ne (c' : String) :
    ∀ (details : List (String × Val)) (r : Row),
      (∀ kv ∈ details, c' ≠ "detail_" ++ kv.1) →
      (details.foldl (fun r kv => r.set ("detail_" ++ kv.1) kv.2) r).get c' = r.get c' := by
  intro details
  induction details with
  | nil => intro r _; rfl
  | cons kv rest ih =>
    intro r hne
    rw [List.foldl_cons]
    rw [ih _ (fun kv2 h2 => hne kv2 (List.mem_cons_of_mem _ h2))]
    exact Row.get_set_ne r _ (hne kv (List.mem_cons_self _ _))

theorem patchRow_get_docId (r : Row) (p : DocPatch) :
    (patchRow r p).get "doc_id" = r.get "doc_id" := by
  unfold patchRow
  rw [set_fold_get_ne _ p.details _
    (fun kv _ => (detail_prefixed_ne kv.1 "doc_id" (by decide)).symm)]
  rw [Row.get_set_ne _ _ (by decide), Row.get_set_ne _ _ (by decide),
    Row.get_set_ne _ _ (by decide)]

theorem patchRow_get_date (r : Row) (p : DocPatch) :
    (patchRow r p).get "doc_date" = p.doc_date := by
  unfold patchRow
  rw [set_fold_get_ne _ p.details _
    (fun kv _ => (detail_prefixed_ne kv.1 "doc_date" (by decide)).symm)]
  rw [Row.get_set_ne _ _ (by decide), Row.get_set_ne _ _ (by decide), Row.get_set_self]

theorem patchRow_get_name (r : Row) (p : DocPatch) :
    (patchRow r p).get "doc_name" = p.doc_name := by
  unfold patchRow
  rw [set_fold_get_ne _ p.details _
    (fun kv _ => (detail_prefixed_ne kv.1 "doc_name" (by decide)).symm)]
  rw [Row.get_set_ne _ _ (by decide), Row.get_set_self]

theorem patchRow_get_link (r : Row) (p : DocPatch) :
    (patchRow r p).get "doc_link" = p.doc_link := by
  unfold patchRow
  rw [set_fold_get_ne _ p.details _
    (fun kv _ => (detail_prefixed_ne kv.1 "doc_link" (by decide)).symm)]
  rw [Row.get_set_self]

theorem set_fold_get_mem {k : String} {v : Val} :
    ∀ (details : List (String × Val)) (r : Row),
      (details.map Prod.fst).Nodup → (k, v) ∈ details →
      (details.foldl (fun r kv => r.set ("detail_" ++ kv.1) kv.2) r).get ("detail_" ++ k)
        = v := by
  intro details
  induction details with
  | nil => intro r _ hmem; exact absurd hmem (by simp)
  | cons kv rest ih =>
    intro r hnd hmem
    rw [List.map_cons] at hnd
    have hnotmem := (List.nodup_cons.mp hnd).1
    have hndtail := (List.nodup_cons.mp hnd).2
    rw [List.foldl_cons]
    rcases List.mem_cons.mp hmem with heq | hmem2
    · rw [set_fold_get_ne _ rest _ ?_]
      · rw [show kv = (k, v) from heq.symm]
        exact Row.get_set_self r _ v
      · intro kv2 h2 hcontra
        have hk : k = kv2.1 := detail_append_inj hcontra
        apply hnotmem
        refine List.mem_map.mpr ⟨kv2, h2, ?_⟩
        show kv2.1 = kv.1
        rw [← heq]
        exact hk.symm
    · exact ih _ hndtail hmem2

theorem patchRow_get_detail (r : Row) (p : DocPatch)
    (hnd : (p.details.map Prod.fst).Nodup) {k : String} {v : Val}
    (hkv : (k, v) ∈ p.details) :
    (patchRow r p).get ("detail_" ++ k) = v :=
  set_fold_get_mem p.details _ hnd hkv

theorem patchRow_get_other (r : Row) (p : DocPatch) {c : String}
    (htr : c ∉ METADATA_FIELDS) (hdet : ∀ kv ∈ p.details, c ≠ "detail_" ++ kv.1) :
    (patchRow r p).get c = r.get c := by
  unfold patchRow
  rw [set_fold_get_ne _ p.details _ hdet]
  have h1 : c ≠ "doc_date" := fun hh => htr (by rw [hh]; decide)
  have h2 : c ≠ "doc_name" := fun hh => htr (by rw [hh]; decide)
  have h3 : c ≠ "doc_link" := fun hh => htr (by rw [hh]; decide)
  rw [Row.get_set_ne _ _ h3, Row.get_set_ne _ _ h2, Row.get_set_ne _ _ h1]

theorem multiPatch_nil (r : Row) : multiPatch [] r = r := rfl

theorem multiPatch_cons (ip : String × DocPatch) (rest : List (String × DocPatch)) (r : Row) :
    multiPatch (ip :: rest) r
      = multiPatch rest (if r.get "doc_id" == Val.str ip.1 then patchRow r ip.2 else r) := rfl

theorem multiPatch_get_docId (ups : List (String × DocPatch)) :
    ∀ r : Row, (multiPatch ups r).get "doc_id" = r.get "doc_id" := by
  induction ups with
  | nil => intro r; rfl
  | cons ip rest ih =>
    intro r
    rw [multiPatch_cons]
    by_cases hg : (r.get "doc_id" == Val.str ip.1) = true
    · rw [if_pos hg, ih, patchRow_get_docId]
    · rw [if_neg hg, ih]

theorem multiPatch_not_mem (ups : List (String × DocPatch)) :
    ∀ r : Row, (∀ ip ∈ ups, r.get "doc_id" ≠ Val.str ip.1) → multiPatch ups r = r := by
  induction ups with
  | nil => intro r _; rfl
  | cons ip rest ih =>
    intro r hne
    rw [multiPatch_cons]
    rw [if_neg (by simpa using hne ip (List.mem_cons_self _ _))]
    exact ih r (fun ip2 h2 => hne ip2 (List.mem_cons_of_mem _ h2))

theorem multiPatch_match (ups : List (String × DocPatch)) :
    ∀ (r : Row) (i : String) (p : DocPatch), (ups.map Prod.fst).Nodup →
      (i, p) ∈ ups → r.get "doc_id" = Val.str i → multiPatch ups r = patchRow r p := by
  induction ups with
  | nil => intro r i p _ hmem; exact absurd hmem (by simp)
  | cons ip rest ih =>
    intro r i p hnd hmem hid
    rw [List.map_cons] at hnd
    have hnotmem := (List.nodup_cons.mp hnd).1
    have hndtail := (List.nodup_cons.mp hnd).2
    rw [multiPatch_cons]
    rcases List.mem_cons.mp hmem with heq | hmem2
    · rw [if_pos (by rw [hid, ← heq]; exact beq_self_eq_true _)]
      rw [show ip = (i, p) from heq.symm]
      apply multiPatch_not_mem
      intro ip2 h2 hcontra
      rw [patchRow_get_docId, hid] at hcontra
      injection hcontra with h3
      rw [← heq] at hnotmem
      apply hnotmem
      exact List.mem_map.mpr ⟨ip2, h2, h3.symm⟩
    · have hip : i ≠ ip.1 := by
        intro h3
        apply hnotmem
        exact List.mem_map.mpr ⟨(i, p), hmem2, h3⟩
      rw [if_neg (by
        rw [hid]
        simp only [beq_eq_false_iff_ne, Bool.not_eq_true, ne_eq]
        intro hh
        injection hh with h4
        exact hip h4)]
      exact ih r i p hndtail hmem2 hid

end RowSetLemmas

section MergeRows

theorem setField_rows (df : DataFrame) (i c : String) (v : Val) :
    (setField df i c v).rows
      = df.rows.map (fun r => if r.get "doc_id" == Val.str i then r.set c v else r) := rfl

theorem setFold_rows (i : String) :
    ∀ (details : List (String × Val)) (df : DataFrame),
      (details.foldl (fun d kv => setField d i ("detail_" ++ kv.1) kv.2) df).rows
        = df.rows.map (fun r => if r.get "doc_id" == Val.str i
            then details.foldl (fun r kv => r.set ("detail_" ++ kv.1) kv.2) r else r) := by
  intro details
  induction details with
  | nil =>
    intro df
    symm
    simp
  | cons kv rest ih =>
    intro df
    rw [List.foldl_cons, ih, setField_rows, List.map_map]
    apply List.map_congr_left
    intro r hr
    simp only [Function.comp]
    by_cases hg : (r.get "doc_id" == Val.str i) = true
    · rw [if_pos hg]
      have hg2 : ((r.set ("detail_" ++ kv.1) kv.2).get "doc_id" == Val.str i) = true := by
        rw [Row.get_set_ne _ _ (detail_prefixed_ne kv.1 "doc_id" (by decide)).symm]
        exact hg
      rw [if_pos hg2, if_pos hg, List.foldl_cons]
    · rw [if_neg hg, if_neg hg, if_neg hg]

theorem applyUpdate_rows (df : DataFrame) (i : String) (p : DocPatch) :
    (applyUpdate df i p).rows = df.rows.map (fun r =>
      if r.get "doc_id" == Val.str i then patchRow r p else r) := by
  unfold applyUpdate
  by_cases hany : df.rows.any (fun r => r.get "doc_id" == Val.str i)
  · rw [if_pos hany]
    rw [setFold_rows, setField_rows, List.map_map, setField_rows, List.map_map,
      setField_rows, List.map_map]
    apply List.map_congr_left
    intro r hr
    simp only [Function.comp]
    by_cases hg : (r.get "doc_id" == Val.str i) = true
    · rw [if_pos hg]
      have hg1 : ((r.set "doc_date" p.doc_date).get "doc_id" == Val.str i) = true := by
        rw [Row.get_set_ne _ _ (by decide)]
        exact hg
      rw [if_pos hg1]
      have hg2 : (((r.set "doc_date" p.doc_date).set "doc_name" p.doc_name).get "doc_id"
          == Val.str i) = true := by
        rw [Row.get_set_ne _ _ (by decide), Row.get_set_ne _ _ (by decide)]
        exact hg
      rw [if_pos hg2]
      have hg3 : ((((r.set "doc_date" p.doc_date).set "doc_name" p.doc_name).set
          "doc_link" p.doc_link).get "doc_id" == Val.str i) = true := by
        rw [Row.get_set_ne _ _ (by decide), Row.get_set_ne _ _ (by decide),
          Row.get_set_ne _ _ (by decide)]
        exact hg
      rw [if_pos hg3, if_pos hg]
      rfl
    · rw [if_neg hg, if_neg hg, if_neg hg, if_neg hg, if_neg hg]
  · rw [if_neg hany]
    have hall : ∀ r ∈ df.rows, (r.get "doc_id" == Val.str i) = false := by
      intro r hr
      rcases Bool.eq_false_or_eq_true (r.get "doc_id" == Val.str i) with ht | hf
      · exact absurd (List.any_eq_true.mpr ⟨r, hr, ht⟩) hany
      · exact hf
    symm
    exact map_eq_self_of_eq_id _ (fun r hr => by rw [hall r hr]; simp)

theorem update_fold_rows (ups : List (String × DocPatch)) :
    ∀ df : DataFrame,
      ((ups.foldl (fun d ip => applyUpdate d ip.1 ip.2) df).rows)
        = df.rows.map (multiPatch ups) := by
  induction ups with
  | nil =>
    intro df
    symm
    exact map_eq_self_of_eq_id _ (fun r hr => multiPatch_nil r)
  | cons ip rest ih =>
    intro df
    rw [List.foldl_cons, ih, applyUpdate_rows, List.map_map]
    apply List.map_congr_left
    intro r hr
    simp only [Function.comp]
    rw [multiPatch_cons]

theorem merge_updates_rows {df : DataFrame} {res : CompareResult} {m : DataFrame}
    (h : merge_updates df res = .ok m) :
    (res.new.isEmpty = true ∧ m.rows = df.rows.map (multiPatch res.updated))
    ∨ (∃ newRows, mapE mkNewRow res.new = .ok newRows
        ∧ m.rows = df.rows.map (multiPatch res.updated) ++ newRows) := by
  unfold merge_updates at h
  by_cases hn : res.new.isEmpty
  · rw [if_pos hn] at h
    injection h with h2
    left
    refine ⟨hn, ?_⟩
    rw [← h2, update_fold_rows]
  · rw [if_neg hn] at h
    cases hrows : mapE mkNewRow res.new with
    | error e => simp only [hrows] at h; exact absurd h (by simp)
    | ok newRows =>
      simp only [hrows] at h
      injection h with h2
      right
      refine ⟨newRows, rfl, ?_⟩
      rw [← h2]
      simp only []
      rw [update_fold_rows]

theorem mkNewRow_ok_get_doc_id {d : NewDoc} {row : Row} (h : mkNewRow d = .ok row) :
    row.get "doc_id" = Val.str d.doc_id := by
  unfold mkNewRow at h
  cases h1 : pySnakeVal ((d.caseFields.lookup "short_case_name").getD (.str "")) with
  | error e => simp only [h1] at h; exact absurd h (by simp)
  | ok scn =>
    simp only [h1] at h
    cases h2 : pySnakeVal d.doc_name with
    | error e => simp only [h2] at h; exact absurd h (by simp)
    | ok dnc =>
      simp only [h2] at h
      injection h with h3
      rw [← h3]
      simp only [Row.get]
      rw [List.lookup_append, List.lookup_append, List.lookup_append]
      rw [show (([("adjusted_page_count", Val.null), ("page_count", Val.null)]
          : List (String × Val)).lookup "doc_id") = none from by decide]
      rw [show ((d.details.reverse.map (fun kv => ("detail_" ++ kv.1, kv.2))).lookup
          "doc_id") = none from ?_]
      · rw [List.lookup_cons, List.lookup_cons, List.lookup_cons]
        rw [show (("doc_id" : String) == "doc_name_clean") = false from by decide]
        rw [show (("doc_id" : String) == "short_case_name_clean") = false from by decide]
        rw [show (("doc_id" : String) == "doc_id") = true from by decide]
        rfl
      · rw [List.lookup_eq_none_iff]
        intro kv hkv
        obtain ⟨kv2, -, hkv2⟩ := List.mem_map.mp hkv
        simp only [bne_iff_ne, ne_eq]
        intro hbeq
        rw [← hkv2] at hbeq
        exact detail_prefixed_ne kv2.1 "doc_id" (by decide) hbeq.symm

theorem mem_ids_of_row (df : DataFrame) {row : Row} (hrow : row ∈ df.rows) {i : String}
    (hid : row.get "doc_id" = Val.str i) :
    (get_existing_doc_ids df).contains (Val.str i) = true := by
  have hmem : Val.str i ∈ get_existing_doc_ids df := by
    apply List.mem_filter.mpr
    exact ⟨List.mem_map.mpr ⟨row, hrow, hid⟩, by simp⟩
  simpa using hmem

theorem merge_new_in_ids {df : DataFrame} {res : CompareResult} {m : DataFrame}
    (h : merge_updates df res = .ok m) {d : NewDoc} (hd : d ∈ res.new) :
    (get_existing_doc_ids m).contains (Val.str d.doc_id) = true := by
  rcases merge_updates_rows h with ⟨hne, -⟩ | ⟨newRows, hmap, hrows⟩
  · exact absurd hd (by simp [List.isEmpty_iff.mp hne])
  · obtain ⟨row, hrowmem, hmk⟩ := mapE_ok_mem_left hmap d hd
    apply mem_ids_of_row m ?_ (mkNewRow_ok_get_doc_id hmk)
    rw [hrows]
    exact List.mem_append_right _ hrowmem

theorem merge_preserves_ids {df : DataFrame} {res : CompareResult} {m : DataFrame}
    (h : merge_updates df res = .ok m) {v : Val}
    (hv : v ∈ get_existing_doc_ids df) : v ∈ get_existing_doc_ids m := by
  unfold get_existing_doc_ids at hv ⊢
  obtain ⟨hv2, hvnn⟩ := List.mem_filter.mp hv
  obtain ⟨row, hrow, hval⟩ := List.mem_map.mp hv2
  apply List.mem_filter.mpr
  refine ⟨?_, hvnn⟩
  apply List.mem_map.mpr
  refine ⟨multiPatch res.updated row, ?_, by rw [multiPatch_get_docId, hval]⟩
  rcases merge_updates_rows h with ⟨-, hrows⟩ | ⟨newRows, -, hrows⟩
  · rw [hrows]
    exact List.mem_map.mpr ⟨row, hrow, rfl⟩
  · rw [hrows]
    exact List.mem_append_left _ (List.mem_map.mpr ⟨row, hrow, rfl⟩)

end MergeRows

/-- Claim C1 (amended) — merge near-idempotence: after reconciling a
scraped case list into an existing dataset with `compare_documents` and
`merge_updates`, a second `compare_documents` run of the same scraped list
against the merged dataset yields an empty `new` list; the `updated` list
of the second pass can be non-empty (for example when an existing row
holds a non-null detail value whose key is absent from the scraped
document's detail mapping, the difference survives the merge and the
document is re-flagged updated on every pass). -/
theorem compare_merge_second_pass_no_new
    (df : DataFrame) (cs : List ScrapedCase) (r : CompareResult) (m : DataFrame)
    (r2 : CompareResult)
    (h1 : compare_documents df cs = .ok r) (h2 : merge_updates df r = .ok m)
    (h3 : compare_documents m cs = .ok r2) :
    r2.new = [] := by
  rw [List.eq_nil_iff_forall_not_mem]
  intro d2 hd2
  obtain ⟨results2, hm2, hnew2, -, -⟩ := compare_ok_elim h3
  rw [hnew2] at hd2
  obtain ⟨clN, hclNmem, hclN⟩ := List.mem_filterMap.mp hd2
  have hclN' : clN = .isNew d2 := by
    cases clN with
    | isNew d' =>
      have : d' = d2 := by simpa [DocClass.newPayload] using hclN
      rw [this]
    | isUpd i' p => simp [DocClass.newPayload] at hclN
    | isUnch i' => simp [DocClass.newPayload] at hclN
  subst hclN'
  obtain ⟨c, hc, arb2, doc, hdoc, hguard, harb2, hcls2⟩ := results_mem_class hm2 hclNmem
  have hfacts2 := classify_ok_some hcls2
  have hgen2 : generate_doc_id arb2 doc.doc_name = .ok (some d2.doc_id) := hfacts2.1
  have hcontm : (get_existing_doc_ids m).contains (Val.str d2.doc_id) = false := by
    rcases hfacts2.2 with ⟨hcf, -⟩ | ⟨-, hno⟩
    · exact hcf
    · exact absurd rfl (hno d2)
  obtain ⟨results1, hm1, hnew1, -, -⟩ := compare_ok_elim h1
  obtain ⟨pr1, hpr1, hpc1⟩ := mapE_ok_mem_left hm1 c hc
  obtain ⟨arb1, opts1, harb1, hmE1, hp11, -⟩ := processCase_ok_go hpc1 hguard
  have harb : arb1 = arb2 := by
    have h4 := harb1.symm.trans harb2
    injection h4 with h5
  obtain ⟨opt1, hopt1, hcls1⟩ := mapE_ok_mem_left hmE1 doc hdoc
  have htr : doc.doc_name.truthy = true := by
    obtain ⟨s, hdn, hs, -⟩ := generate_doc_id_ok_some hgen2
    rw [hdn]
    simpa [Val.truthy] using hs
  obtain ⟨cl1, hcl1⟩ := classify_ok_truthy hcls1 htr rfl
  subst hcl1
  have hfacts1 := classify_ok_some hcls1
  have hdocId1 : cl1.docId = d2.doc_id := by
    have hgen1 : generate_doc_id arb1 doc.doc_name = .ok (some cl1.docId) := hfacts1.1
    rw [harb] at hgen1
    have h4 := hgen1.symm.trans hgen2
    injection h4 with h5
    injection h5 with h6
  have hcl1mem : cl1 ∈ (results1.map Prod.fst).flatten := by
    apply List.mem_flatten.mpr
    refine ⟨pr1.1, List.mem_map.mpr ⟨pr1, hpr1, rfl⟩, ?_⟩
    rw [hp11]
    exact List.mem_filterMap.mpr ⟨some cl1, hopt1, rfl⟩
  rcases hfacts1.2 with ⟨-, d1, hd1⟩ | ⟨hcont1, -⟩
  · subst hd1
    have hd1mem : d1 ∈ r.new := by
      rw [hnew1]
      exact List.mem_filterMap.mpr ⟨.isNew d1, hcl1mem, rfl⟩
    have hin := merge_new_in_ids h2 hd1mem
    rw [show d1.doc_id = d2.doc_id from hdocId1] at hin
    exact Bool.false_ne_true (hcontm.symm.trans hin)
  · have hv : Val.str cl1.docId ∈ get_existing_doc_ids df := by simpa using hcont1
    have hv2 := merge_preserves_ids h2 hv
    have hin : (get_existing_doc_ids m).contains (Val.str cl1.docId) = true := by
      simpa using hv2
    rw [hdocId1] at hin
    exact Bool.false_ne_true (hcontm.symm.trans hin)

/-- Claim C1 counterexample: the existing row holds `detail_Foo = "v"` but
the identical re-scrape carries no `Foo` detail key, so the document is
flagged updated, the merge does not clear the difference, and the second
reconciliation flags it updated again — the second pass is not empty as
the claim states (only its `new` list is). -/
theorem compare_merge_second_pass_cx :
    compare_documents cxDF1 [cxCase1] = .ok cxRes1
    ∧ merge_updates cxDF1 cxRes1 = .ok cxM1
    ∧ compare_documents cxM1 [cxCase1] = .ok cxRes1b
    ∧ cxRes1b.updated.map Prod.fst = ["2020_a_b"]
    ∧ cxRes1b.new = [] := by
  refine ⟨by decide, by decide, by decide, by decide, by decide⟩

/-- Witness for C1 (amended): the scenario-A second pass has an empty
`new` list. -/
theorem compare_merge_second_pass_no_new_witness :
    wResA2.new = [] :=
  compare_merge_second_pass_no_new wDFA [wCaseA] wResA wMA wResA2
    (by decide) (by decide) (by decide)

section FrameLemmas

theorem getD_map_of_lt {α β : Type} (f : α → β) (l : List α) (i : Nat)
    (hi : i < l.length) (d : α) (d' : β) :
    (l.map f).getD i d' = f (l.getD i d) := by
  rw [List.getD_eq_getElem?_getD, List.getD_eq_getElem?_getD, List.getElem?_map]
  rw [List.getElem?_eq_getElem hi]
  rfl

theorem rows_getD_merge {df : DataFrame} {res : CompareResult} {m : DataFrame}
    (h : merge_updates df res = .ok m) {i : Nat} (hi : i < df.rows.length) :
    m.rows.getD i ⟨[]⟩ = multiPatch res.updated (df.rows.getD i ⟨[]⟩) := by
  rcases merge_updates_rows h with ⟨-, hrows⟩ | ⟨newRows, -, hrows⟩
  · rw [hrows]
    exact getD_map_of_lt _ _ _ hi _ _
  · rw [hrows]
    rw [List.getD_append _ _ _ _ (by rw [List.length_map]; exact hi)]
    exact getD_map_of_lt _ _ _ hi _ _

theorem classify_upd_elim {df : DataFrame} {ids : List Val} {cols : List String}
    {c : ScrapedCase} {arb : Val} {doc : ScrapedDoc} {i : String} {p : DocPatch}
    (h : classifyDoc df ids cols c arb doc = .ok (some (.isUpd i p))) :
    ∃ row, df.rows.find? (fun r => r.get "doc_id" == Val.str i) = some row
      ∧ compare_metadata row p cols = true := by
  cases hg : generate_doc_id arb doc.doc_name with
  | error e => rw [classifyDoc_error_of_gen_error hg] at h; exact absurd h (by simp)
  | ok o =>
    cases o with
    | none =>
      exfalso
      unfold classifyDoc at h
      rw [hg] at h
      simp at h
    | some i0 =>
      rw [classifyDoc_eq_of_gen_some hg (generate_doc_id_ok_some_ne_empty hg)] at h
      by_cases hc : ids.contains (Val.str i0)
      · rw [if_pos hc] at h
        cases hf : df.rows.find? (fun r => r.get "doc_id" == Val.str i0) with
        | none => simp only [hf] at h; exact absurd h (by simp)
        | some row =>
          simp only [hf] at h
          by_cases hcmp : compare_metadata row
              ⟨doc.date, doc.doc_name, doc.doc_link, doc.details⟩ cols
          · rw [if_pos hcmp] at h
            injection h with h2
            injection h2 with h3
            injection h3 with h4 h5
            subst h4
            rw [← h5]
            exact ⟨row, hf, hcmp⟩
          · rw [if_neg hcmp] at h
            injection h with h2
            injection h2 with h3
            cases h3
      · rw [if_neg hc] at h
        injection h with h2
        injection h2 with h3
        cases h3

end FrameLemmas

/-- Claim C9 — update frame property: when `merge_updates` applies the
patch for an updated document (patch identifiers pairwise distinct), each
row bearing the identifier gets exactly the three tracked fields and the
patched detail columns overwritten; every other column of that row — in
particular `doc_id` and `arbitration_id` — keeps its prior value, and rows
whose identifier is not in the updated list keep all their values (a
detail column created by the merge reads null on those rows, exactly as an
absent column did before). -/
theorem merge_updates_update_frame (df : DataFrame) (res : CompareResult) (m : DataFrame)
    (h : merge_updates df res = .ok m)
    (hnd : (res.updated.map Prod.fst).Nodup)
    (i : Nat) (hi : i < df.rows.length) :
    ((∀ ip ∈ res.updated, (df.rows.getD i ⟨[]⟩).get "doc_id" ≠ Val.str ip.1) →
       ∀ c, (m.rows.getD i ⟨[]⟩).get c = (df.rows.getD i ⟨[]⟩).get c)
    ∧ (∀ id p, (id, p) ∈ res.updated → (df.rows.getD i ⟨[]⟩).get "doc_id" = Val.str id →
        (m.rows.getD i ⟨[]⟩).get "doc_date" = p.doc_date
        ∧ (m.rows.getD i ⟨[]⟩).get "doc_name" = p.doc_name
        ∧ (m.rows.getD i ⟨[]⟩).get "doc_link" = p.doc_link
        ∧ ((p.details.map Prod.fst).Nodup →
            ∀ k v, (k, v) ∈ p.details → (m.rows.getD i ⟨[]⟩).get ("detail_" ++ k) = v)
        ∧ (∀ c, c ∉ METADATA_FIELDS → (∀ kv ∈ p.details, c ≠ "detail_" ++ kv.1) →
            (m.rows.getD i ⟨[]⟩).get c = (df.rows.getD i ⟨[]⟩).get c)) := by
  have hrow := rows_getD_merge h hi
  constructor
  · intro hnone c
    rw [hrow, multiPatch_not_mem _ _ hnone]
  · intro id p hmem hid
    rw [hrow, multiPatch_match res.updated _ id p hnd hmem hid]
    exact ⟨patchRow_get_date _ _, patchRow_get_name _ _, patchRow_get_link _ _,
      fun hnd2 k v hkv => patchRow_get_detail _ _ hnd2 hkv,
      fun c hc1 hc2 => patchRow_get_other _ _ hc1 hc2⟩

/-- Witness for C9: in the one-patch witness instance the matched row's
`doc_link` becomes the patched value while its `doc_id` keeps its prior
value. -/
theorem merge_updates_update_frame_witness :
    (wM4.rows.getD 0 ⟨[]⟩).get "doc_link" = Val.str "z"
    ∧ (wM4.rows.getD 0 ⟨[]⟩).get "doc_id" = (wDF4.rows.getD 0 ⟨[]⟩).get "doc_id" := by
  have h := (merge_updates_update_frame wDF4 wRes4 wM4 (by decide) (by decide) 0
    (by decide)).2 "d" ⟨.null, .null, .str "z", []⟩ (by decide) (by decide)
  exact ⟨h.2.2.1, h.2.2.2.2 "doc_id" (by decide) (by simp)⟩

/-- Claim C5 (amended) — duplicate-identifier behaviour: the comparison
side does use only the first matching row (an `updated` verdict for an
identifier comes from `compare_metadata` on the first row bearing it), but
the merge side patches every row bearing the identifier, not only the
first: later duplicate rows are modified as well, contrary to the claim. -/
theorem duplicate_identifier_policy :
    (∀ (df : DataFrame) (cs : List ScrapedCase) (r : CompareResult),
       compare_documents df cs = .ok r →
       ∀ i p, (i, p) ∈ r.updated →
         ∃ row, df.rows.find? (fun row => row.get "doc_id" == Val.str i) = some row
           ∧ compare_metadata row p (extract_detail_columns df) = true)
    ∧ (∀ (df : DataFrame) (res : CompareResult) (m : DataFrame) (i : String) (p : DocPatch),
         merge_updates df res = .ok m → res.updated = [(i, p)] →
         ∀ j, j < df.rows.length →
           ((df.rows.getD j ⟨[]⟩).get "doc_id" = Val.str i →
              m.rows.getD j ⟨[]⟩ = patchRow (df.rows.getD j ⟨[]⟩) p)
           ∧ ((df.rows.getD j ⟨[]⟩).get "doc_id" ≠ Val.str i →
              m.rows.getD j ⟨[]⟩ = df.rows.getD j ⟨[]⟩)) := by
  constructor
  · intro df cs r h i p hmem
    obtain ⟨results, hm, -, hupd, -⟩ := compare_ok_elim h
    rw [hupd] at hmem
    obtain ⟨clU, hclUmem, hclU⟩ := List.mem_filterMap.mp hmem
    have hclU' : clU = .isUpd i p := by
      cases clU with
      | isUpd i' p' =>
        have : (i', p') = (i, p) := by simpa [DocClass.updPayload] using hclU
        injection this with h1 h2
        rw [h1, h2]
      | isNew d => simp [DocClass.updPayload] at hclU
      | isUnch i' => simp [DocClass.updPayload] at hclU
    subst hclU'
    obtain ⟨c, -, arb, doc, -, -, -, hcls⟩ := results_mem_class hm hclUmem
    exact classify_upd_elim hcls
  · intro df res m i p h hupd j hj
    have hrow := rows_getD_merge h hj
    rw [hupd] at hrow
    constructor
    · intro hid
      rw [hrow, multiPatch_cons, if_pos (by rw [hid]; exact beq_self_eq_true _),
        multiPatch_nil]
    · intro hid
      rw [hrow, multiPatch_cons, if_neg (by simpa using hid), multiPatch_nil]

/-- Claim C5 counterexample: two existing rows share the identifier
`2020_a_b` with links `x` and `y`; a re-scrape with link `z` produces one
update patch, and the merge overwrites the link of the *second* row too
(`y` becomes `z`), so later duplicate rows are not left untouched. -/
theorem duplicate_identifier_cx :
    compare_documents cxDF5 [cxCase5] = .ok cxRes5
    ∧ merge_updates cxDF5 cxRes5 = .ok cxM5
    ∧ (cxDF5.rows.getD 1 ⟨[]⟩).get "doc_link" = Val.str "y"
    ∧ (cxM5.rows.getD 1 ⟨[]⟩).get "doc_link" = Val.str "z"
    ∧ cxM5.rows.getD 1 ⟨[]⟩ ≠ cxDF5.rows.getD 1 ⟨[]⟩ := by
  refine ⟨by decide, by decide, by decide, by decide, by decide⟩

/-- Witness for C5 (amended): the second duplicate row of the
counterexample instance is exactly the patch of its prior value. -/
theorem duplicate_identifier_witness :
    cxM5.rows.getD 1 ⟨[]⟩
      = patchRow (cxDF5.rows.getD 1 ⟨[]⟩) ⟨.null, .str "B", .str "z", []⟩ :=
  (duplicate_identifier_policy.2 cxDF5 cxRes5 cxM5 "2020_a_b"
    ⟨.null, .str "B", .str "z", []⟩ (by decide) (by decide) 1 (by decide)).1 (by decide)

section RowCount

theorem setField_rows_length (df : DataFrame) (i c : String) (v : Val) :
    (setField df i c v).rows.length = df.rows.length := by
  simp [setField]

theorem setField_fold_rows_length (details : List (String × Val)) (i : String) :
    ∀ df : DataFrame,
      (details.foldl (fun d kv => setField d i ("detail_" ++ kv.1) kv.2) df).rows.length
        = df.rows.length := by
  induction details with
  | nil => intro df; rfl
  | cons kv l ih =>
    intro df
    simp only [List.foldl_cons]
    rw [ih, setField_rows_length]

theorem applyUpdate_rows_length (df : DataFrame) (i : String) (p : DocPatch) :
    (applyUpdate df i p).rows.length = df.rows.length := by
  unfold applyUpdate
  by_cases h : df.rows.any (fun r => r.get "doc_id" == Val.str i)
  · simp only [h, if_true]
    rw [setField_fold_rows_length]
    simp [setField_rows_length]
  · simp [h]

theorem update_fold_rows_length (ups : List (String × DocPatch)) :
    ∀ df : DataFrame,
      (ups.foldl (fun d ip => applyUpdate d ip.1 ip.2) df).rows.length = df.rows.length := by
  induction ups with
  | nil => intro df; rfl
  | cons ip l ih =>
    intro df
    simp only [List.foldl_cons]
    rw [ih, applyUpdate_rows_length]

end RowCount

/-- Claim C4 — merge row-count law: whenever `merge_updates` completes on an
existing dataset and a comparison result, the merged table has exactly
`len(existing) + len(new)` rows; applying the update patches changes field
values only and never the number of rows. -/
theorem merge_updates_row_count (df : DataFrame) (res : CompareResult) (m : DataFrame)
    (h : merge_updates df res = .ok m) :
    m.rows.length = df.rows.length + res.new.length := by
  unfold merge_updates at h
  by_cases hn : res.new.isEmpty
  · rw [if_pos hn] at h
    cases h
    rw [update_fold_rows_length]
    simp [List.isEmpty_iff.mp hn]
  · rw [if_neg hn] at h
    cases hrows : mapE mkNewRow res.new with
    | error e => rw [hrows] at h; exact absurd h (by simp)
    | ok newRows =>
      rw [hrows] at h
      cases h
      simp only [List.length_append]
      rw [update_fold_rows_length, mapE_ok_length hrows]

/-- Witness for C4: a dataset with one existing row, one update patch and
one genuinely new document merges to `1 + 1` rows. -/
theorem merge_updates_row_count_witness :
    wM4.rows.length = wDF4.rows.length + wRes4.new.length :=
  merge_updates_row_count wDF4 wRes4 wM4 (by decide)

/-- Claim C7 counterexample: on a null year (with a perfectly good case
name) `generate_arbitration_id` raises (`AttributeError`/`TypeError` path,
modelled as `error`) — it does not return null as the specification
claims. -/
theorem generate_arbitration_id_null_year_raises :
    generate_arbitration_id Val.null (Val.str "acme") = .error ()
    ∧ ¬ (generate_arbitration_id Val.null (Val.str "acme") = .ok Val.null) := by
  constructor
  · decide
  · decide

/-- Claim C7 (amended) — `generate_arbitration_id` raises an exception
(rather than returning null) exactly when the case name is not a string or
the year is null or unparseable as an integer; it never returns null, and
on a string name and parseable year it returns
`"{int(year)}_{to_snake_case(case_name)}"`. -/
theorem generate_arbitration_id_spec (y n : Val) :
    (generate_arbitration_id y n = .error () ↔ (∀ s, n ≠ .str s) ∨ pyInt y = .error ())
    ∧ generate_arbitration_id y n ≠ .ok Val.null
    ∧ (∀ s k, n = .str s → pyInt y = .ok k →
        generate_arbitration_id y n = .ok (.str (toString k ++ "_" ++ to_snake_case s))) := by
  refine ⟨?_, ?_, ?_⟩
  · cases n with
    | str s =>
      cases hy : pyInt y with
      | ok k => simp [generate_arbitration_id, hy]
      | error e => simp [generate_arbitration_id, hy]
    | null => simp [generate_arbitration_id]
    | int m => simp [generate_arbitration_id]
  · cases n with
    | str s =>
      cases hy : pyInt y with
      | ok k => simp [generate_arbitration_id, hy]
      | error e => simp [generate_arbitration_id, hy]
    | null => simp [generate_arbitration_id]
    | int m => simp [generate_arbitration_id]
  · intro s k hn hy
    subst hn
    simp [generate_arbitration_id, hy]

/-- Witness for C7 (amended): at year `2020` and name `"Acme v. State"`
the amended description evaluates as stated. -/
theorem generate_arbitration_id_spec_witness :
    generate_arbitration_id (.int 2020) (.str "Acme v. State") =
      .ok (.str "2020_acme_v_state") := by
  have h := (generate_arbitration_id_spec (.int 2020) (.str "Acme v. State")).2.2
    "Acme v. State" 2020 rfl (by decide)
  rw [h]
  decide

/-- Claim C8 counterexample: a null case identifier does not make
`generate_doc_id` return null — the `None` is interpolated into the
identifier as the literal text `"None"`. -/
theorem generate_doc_id_null_arbitration_id_not_null :
    generate_doc_id Val.null (Val.str "Award") = .ok (some "None_award")
    ∧ ¬ (generate_doc_id Val.null (Val.str "Award") = .ok none) := by
  constructor
  · decide
  · decide

/-- Claim C8 (amended) — `generate_doc_id` returns null exactly when the
document name is falsy (null, the empty string, or zero); the case
identifier is never checked, and for a non-empty string name the result is
`f"{arbitration_id}_{to_snake_case(doc_name)}"` with a null case
identifier rendered as the text `"None"`. -/
theorem generate_doc_id_spec (a dn : Val) :
    (generate_doc_id a dn = .ok none ↔ dn.truthy = false)
    ∧ (∀ s, dn = .str s → s ≠ "" →
        generate_doc_id a dn = .ok (some (a.fstr ++ "_" ++ to_snake_case s))) := by
  constructor
  · cases dn with
    | null => simp [generate_doc_id, Val.truthy]
    | str s =>
      by_cases hs : s = ""
      · subst hs; simp [generate_doc_id, Val.truthy]
      · simp [generate_doc_id, Val.truthy, hs]
    | int m =>
      by_cases hm : m = 0
      · subst hm; simp [generate_doc_id, Val.truthy]
      · simp [generate_doc_id, Val.truthy, hm]
  · intro s hdn hs
    subst hdn
    simp [generate_doc_id, Val.truthy, hs]

/-- Witness for C8 (amended): a normal call produces the composed
identifier, and the falsy-name call returns null. -/
theorem generate_doc_id_spec_witness :
    generate_doc_id (.str "2020_acme_v_state") (.str "Award") =
      .ok (some "2020_acme_v_state_award") := by
  have h := (generate_doc_id_spec (.str "2020_acme_v_state") (.str "Award")).2
    "Award" rfl (by decide)
  rw [h]
  decide

/-- Claim C6 counterexample: the detail key match is case-sensitive in the
source — an existing column `detail_Claimant` is not matched by a scraped
detail key `claimant`, so the source flags a difference while the
case-insensitive comparison described by the specification finds none. -/
theorem compare_metadata_case_sensitive_cx :
    compare_metadata ⟨[("detail_Claimant", .str "v")]⟩
        ⟨.null, .null, .null, [("claimant", .str "v")]⟩ ["detail_Claimant"] = true
    ∧ compare_metadata_ci_spec ⟨[("detail_Claimant", .str "v")]⟩
        ⟨.null, .null, .null, [("claimant", .str "v")]⟩ ["detail_Claimant"] = false := by
  constructor
  · decide
  · decide

/-- Claim C6 (amended) — `compare_metadata` reports a difference iff at
least one compared field differs, where the compared fields are the three
tracked fields and every `detail_*` column of the existing dataset, each
detail column's key (the column name with the `detail_` marker removed)
being matched against the scraped detail mapping exactly, i.e.
case-sensitively, with both sides' missing values read as the null
sentinel. -/
theorem compare_metadata_diff_iff (r : Row) (p : DocPatch) (cols : List String) :
    compare_metadata r p cols = true ↔
      (∃ f ∈ METADATA_FIELDS, r.get f ≠ p.get f)
      ∨ (∃ c ∈ cols, r.get c ≠ detailGet p.details (stripDetail c)) := by
  unfold compare_metadata
  rw [Bool.or_eq_true, List.any_eq_true, List.any_eq_true]
  constructor
  · rintro (⟨f, hf, hdiff⟩ | ⟨c, hc, hdiff⟩)
    · exact Or.inl ⟨f, hf, by simpa using hdiff⟩
    · exact Or.inr ⟨c, hc, by simpa using hdiff⟩
  · rintro (⟨f, hf, hdiff⟩ | ⟨c, hc, hdiff⟩)
    · exact Or.inl ⟨f, hf, by simpa using hdiff⟩
    · exact Or.inr ⟨c, hc, by simpa using hdiff⟩

section SnakeIdem

theorem lower_fix_of_al {c : Char} (h : isSnakeAl c = true) : c.toLower = c := by
  unfold Char.toLower
  have hn : ¬(c.toNat ≥ 65 ∧ c.toNat ≤ 90) := by
    simp only [isSnakeAl, Bool.or_eq_true, Bool.and_eq_true, decide_eq_true_eq] at h
    omega
  simp [hn]

theorem lower_fix {c : Char} (h : isSnakeAl c = true ∨ c = '_') : c.toLower = c := by
  rcases h with h | h
  · exact lower_fix_of_al h
  · subst h; decide

theorem collapse_cons_al {a : Char} {cs : List Char} (ha : isSnakeAl a = true) (b : Bool) :
    collapse (a :: cs) b = a :: collapse cs false := by
  cases b <;> simp [collapse, ha]

theorem collapse_cons_sep_false {a : Char} {cs : List Char} (ha : isSnakeAl a = false) :
    collapse (a :: cs) false = '_' :: collapse cs true := by
  simp [collapse, ha]

theorem collapse_cons_sep_true {a : Char} {cs : List Char} (ha : isSnakeAl a = false) :
    collapse (a :: cs) true = collapse cs true := by
  simp [collapse, ha]

theorem mapLower_fix : ∀ l : List Char, (∀ c ∈ l, isSnakeAl c = true ∨ c = '_') →
    l.map Char.toLower = l := by
  intro l
  induction l with
  | nil => intro _; rfl
  | cons c cs ih =>
    intro h
    simp only [List.map_cons]
    rw [lower_fix (h c (List.mem_cons_self _ _)), ih (fun d hd => h d (List.mem_cons_of_mem _ hd))]

theorem collapse_mem : ∀ (l : List Char) (b : Bool) (c : Char),
    c ∈ collapse l b → isSnakeAl c = true ∨ c = '_' := by
  intro l
  induction l with
  | nil => intro b c hc; simp [collapse] at hc
  | cons a cs ih =>
    intro b c hc
    by_cases ha : isSnakeAl a
    · rw [collapse_cons_al ha] at hc
      rcases List.mem_cons.mp hc with h | h
      · subst h; exact Or.inl ha
      · exact ih false c h
    · rw [Bool.not_eq_true] at ha
      cases b with
      | true =>
        rw [collapse_cons_sep_true ha] at hc
        exact ih true c hc
      | false =>
        rw [collapse_cons_sep_false ha] at hc
        rcases List.mem_cons.mp hc with h | h
        · subst h; exact Or.inr rfl
        · exact ih true c h

theorem collapse_chain : ∀ (l : List Char) (b : Bool),
    List.Chain' ne_dd (collapse l b)
    ∧ (b = true → ∀ c, (collapse l b).head? = some c → isSnakeAl c = true) := by
  intro l
  induction l with
  | nil =>
    intro b
    exact ⟨List.chain'_nil, by intro _ c hc; simp [collapse] at hc⟩
  | cons a cs ih =>
    intro b
    by_cases ha : isSnakeAl a
    · rw [collapse_cons_al ha]
      refine ⟨List.chain'_cons'.mpr ⟨?_, (ih false).1⟩, ?_⟩
      · intro y _; exact Or.inl ha
      · intro _ c hc
        have hac : a = c := by simpa using hc
        rw [← hac]
        exact ha
    · rw [Bool.not_eq_true] at ha
      cases b with
      | true =>
        rw [collapse_cons_sep_true ha]
        exact ih true
      | false =>
        rw [collapse_cons_sep_false ha]
        refine ⟨List.chain'_cons'.mpr ⟨?_, (ih true).1⟩, by intro h; cases h⟩
        intro y hy
        exact Or.inr ((ih true).2 rfl y hy)

theorem collapse_fix : ∀ l : List Char,
    (∀ c ∈ l, isSnakeAl c = true ∨ c = '_') →
    List.Chain' ne_dd l →
    (∀ c, l.getLast? = some c → c ≠ '_') →
    collapse l false = l := by
  intro l
  induction l with
  | nil => intro _ _ _; rfl
  | cons a cs ih =>
    intro hmem hch hlast
    by_cases ha : isSnakeAl a
    · rw [collapse_cons_al ha]
      have hcs : collapse cs false = cs := by
        apply ih (fun d hd => hmem d (List.mem_cons_of_mem _ hd)) hch.tail
        intro c hc
        apply hlast c
        cases cs with
        | nil => simp at hc
        | cons d cs => rw [List.getLast?_cons_cons]; exact hc
      rw [hcs]
    · have ha' : a = '_' := by
        rcases hmem a (List.mem_cons_self _ _) with h | h
        · exact absurd h ha
        · exact h
      subst ha'
      cases cs with
      | nil => exact absurd rfl (hlast '_' rfl)
      | cons d cs =>
        have hd : isSnakeAl d = true := by
          rcases List.chain'_cons.mp hch with ⟨hr, _⟩
          rcases hr with h | h
          · exact absurd h (by decide)
          · exact h
        have hdcs : collapse (d :: cs) false = d :: cs := by
          apply ih (fun e he => hmem e (List.mem_cons_of_mem _ he)) hch.tail
          intro c hc
          exact hlast c (by rw [List.getLast?_cons_cons]; exact hc)
        have hdcs' : d :: collapse cs false = d :: cs := by
          rw [← collapse_cons_al hd false]
          exact hdcs
        have hcs : collapse cs false = cs := by injection hdcs'
        rw [collapse_cons_sep_false (by decide : isSnakeAl '_' = false),
          collapse_cons_al hd, hcs]

theorem dropWhile_head_not (p : α → Bool) :
    ∀ (l : List α) (c : α), (l.dropWhile p).head? = some c → p c = false := by
  intro l
  induction l with
  | nil => intro c hc; simp at hc
  | cons a cs ih =>
    intro c hc
    by_cases ha : p a
    · rw [List.dropWhile_cons_of_pos ha] at hc
      exact ih c hc
    · rw [List.dropWhile_cons_of_neg ha] at hc
      have hac : a = c := by simpa using hc
      rw [← hac]
      simpa using ha

theorem dropWhile_eq_self_of_head (p : α → Bool) (l : List α)
    (h : ∀ c, l.head? = some c → p c = false) : l.dropWhile p = l := by
  cases l with
  | nil => rfl
  | cons a cs => exact List.dropWhile_cons_of_neg (by simp [h a rfl])

theorem getLast?_dropWhile (p : α → Bool) :
    ∀ l : List α, l.dropWhile p = [] ∨ (l.dropWhile p).getLast? = l.getLast? := by
  intro l
  induction l with
  | nil => exact Or.inl rfl
  | cons a cs ih =>
    by_cases ha : p a
    · rw [List.dropWhile_cons_of_pos ha]
      rcases ih with h | h
      · exact Or.inl h
      · cases cs with
        | nil => exact Or.inl rfl
        | cons d cs => exact Or.inr (by rw [h, List.getLast?_cons_cons])
    · rw [List.dropWhile_cons_of_neg ha]
      exact Or.inr rfl

theorem stripUnderscores_mem {l : List Char} {c : Char} (hc : c ∈ stripUnderscores l) :
    c ∈ l := by
  unfold stripUnderscores at hc
  rw [List.mem_reverse] at hc
  have h1 := (List.dropWhile_sublist (l := ((l.dropWhile (fun c => c == '_')).reverse))
    (fun c => c == '_')).subset hc
  rw [List.mem_reverse] at h1
  exact (List.dropWhile_sublist (fun c => c == '_')).subset h1

theorem chain_ne_dd_reverse {l : List Char} (h : List.Chain' ne_dd l) :
    List.Chain' ne_dd l.reverse := by
  rw [List.chain'_reverse]
  exact h.imp (fun a b hab => Or.symm hab)

theorem stripUnderscores_chain {l : List Char} (h : List.Chain' ne_dd l) :
    List.Chain' ne_dd (stripUnderscores l) := by
  unfold stripUnderscores
  apply chain_ne_dd_reverse
  apply List.Chain'.suffix _ (List.dropWhile_suffix _)
  apply chain_ne_dd_reverse
  exact List.Chain'.suffix h (List.dropWhile_suffix _)

theorem stripUnderscores_head {l : List Char} :
    ∀ c, (stripUnderscores l).head? = some c → c ≠ '_' := by
  intro c hc
  unfold stripUnderscores at hc
  rw [List.head?_reverse] at hc
  rcases getLast?_dropWhile (fun c => c == '_') ((l.dropWhile (fun c => c == '_')).reverse)
    with h | h
  · rw [h] at hc; simp at hc
  · rw [h, List.getLast?_reverse] at hc
    have := dropWhile_head_not (fun c => c == '_') l c hc
    simpa using this

theorem stripUnderscores_last {l : List Char} :
    ∀ c, (stripUnderscores l).getLast? = some c → c ≠ '_' := by
  intro c hc
  unfold stripUnderscores at hc
  rw [List.getLast?_reverse] at hc
  have := dropWhile_head_not (fun c => c == '_') _ c hc
  simpa using this

theorem stripUnderscores_fix {l : List Char}
    (hh : ∀ c, l.head? = some c → c ≠ '_') (hl : ∀ c, l.getLast? = some c → c ≠ '_') :
    stripUnderscores l = l := by
  unfold stripUnderscores
  rw [dropWhile_eq_self_of_head _ l (fun c hc => by simpa using hh c hc)]
  rw [dropWhile_eq_self_of_head _ l.reverse
    (fun c hc => by simpa using hl c (by rw [← List.head?_reverse]; exact hc))]
  exact List.reverse_reverse l

/-- Claim C10 — normalize idempotence: `to_snake_case` (lowercase, collapse
every maximal non-alphanumeric run to one separator, strip boundary
separators) is idempotent. -/
theorem to_snake_case_idempotent (s : String) :
    to_snake_case (to_snake_case s) = to_snake_case s := by
  unfold to_snake_case
  apply congrArg String.mk
  show stripUnderscores (collapse ((stripUnderscores
    (collapse (s.data.map Char.toLower) false)).map Char.toLower) false) = _
  have hmem : ∀ c ∈ stripUnderscores (collapse (s.data.map Char.toLower) false),
      isSnakeAl c = true ∨ c = '_' :=
    fun c hc => collapse_mem _ _ _ (stripUnderscores_mem hc)
  rw [mapLower_fix _ hmem]
  rw [collapse_fix _ hmem
    (stripUnderscores_chain (collapse_chain (s.data.map Char.toLower) false).1)
    stripUnderscores_last]
  exact stripUnderscores_fix stripUnderscores_head stripUnderscores_last

end SnakeIdem

end Italaw

namespace Italaw

example : to_snake_case "Acme v. State" = "acme_v_state" := by decide
example : to_snake_case "  __Hello--World__ " = "hello_world" := by decide
example : generate_arbitration_id (.int 2020) (.str "Acme v. State") =
    .ok (.str "2020_acme_v_state") := by decide
example : generate_doc_id (.str "2020_acme_v_state") (.str "Award") =
    .ok (some "2020_acme_v_state_award") := by decide
example : generate_doc_id .null (.str "Award") = .ok (some "None_award") := by decide
example : pyInt (.str " 2020 ") = .ok 2020 := by decide
example : pyInt (.str "20.5") = .error () := by decide

end Italaw
